import Mathlib

/-!
Shallow embedding of `src/lobe-export.py` (the lobe-export pipeline).

Filesystem paths are lists of components; the filesystem is an association
list from paths to file data plus a list of existing directories.  Machine
integers of the source (sqlite INTEGER columns) are modelled as `Int`.
Fallible Python code (raised exceptions) is modelled with explicit error
values.  External library calls made by the source are modelled by their
documented behaviour:
  * `sqlite3.connect` opens an existing database, and on a nonexistent path
    creates an empty database file; executing a query on an empty or
    non-database file raises an error at query time;
  * `PIL.Image.open` succeeds exactly on decodable image files;
  * `imagehash.phash` is an arbitrary pure function of the decoded image,
    passed around as an explicit parameter `ph`;
  * `shutil.copy2 a b` reads the file at `a` and overwrites `b` with its
    content, raising a file-not-found error when `a` does not exist;
  * `multiprocessing.Pool.imap` computes one result per input item on a
    pool of workers and yields the results re-sequenced in input order;
    the order in which item computations complete is an explicit
    parameter `order` (a permutation of the item indices).
-/

namespace LobeExport

/-- A filesystem path, as a list of components.  `Path(a) / b` of the source
is `a ++ [b]`. -/
abbrev FsPath := List String

/-- A Python value as it appears in a pandas cell: a string, an integer, or
`None` (sqlite NULL passes through `read_db` unchanged). -/
inductive Value where
  | str (s : String)
  | int (n : Int)
  | null
  deriving DecidableEq, Repr

/-- One joined record as built by `read_db` (source lines 35-42). -/
structure ExRec where
  example_id : Int
  hash : String
  filename : Option String
  label : String
  date : Int
  accuracy : Option Int
  deriving DecidableEq, Repr

/-- A default record, used only as the out-of-range default of `List.getD`. -/
def rec0 : ExRec := ⟨0, "", none, "", 0, none⟩

/-- A row of the `example_images` table (columns used by the query). -/
structure ImageRow where
  example_id : Int
  hash : String
  /-- `json_extract(i.metadata, $.filename)`; `none` models a missing key. -/
  metadata_filename : Option String
  deriving DecidableEq, Repr

/-- A row of the `example_labels` table (columns used by the query). -/
structure LabelRow where
  example_id : Int
  label : String
  modified : Int
  deriving DecidableEq, Repr

/-- A row of the `example_metrics` table (columns used by the query). -/
structure MetricRow where
  example_id : Int
  accuracy : Option Int
  deriving DecidableEq, Repr

/-- The source relational store: the four tables joined by the query of
`read_db` (source lines 18-32).  Of `examples` only the join key matters. -/
structure Database where
  example_images : List ImageRow
  example_labels : List LabelRow
  example_metrics : List MetricRow
  examples : List Int
  deriving DecidableEq, Repr

/-- Content of a file on disk. -/
inductive FileData where
  /-- A file `PIL.Image.open` decodes; the payload is the decoded image. -/
  | image (px : List Nat)
  /-- Raw bytes that do not decode as an image (and are not a database). -/
  | bytes (bs : List Nat)
  /-- A valid sqlite store holding the expected schema. -/
  | store (d : Database)
  /-- An empty database file, as created by `sqlite3.connect` on a
  nonexistent path: a valid sqlite file containing no tables. -/
  | emptyStore
  /-- A csv file as written by `DataFrame.to_csv(..., index=False)`:
  a header row and one cell row per record. -/
  | csv (header : List String) (cells : List (List Value))
  deriving DecidableEq, Repr

/-- Association-list update: replace the first binding of `p`, or append a
new binding at the end. -/
def setAssoc (xs : List (FsPath × FileData)) (p : FsPath) (d : FileData) :
    List (FsPath × FileData) :=
  match xs with
  | [] => [(p, d)]
  | (q, e) :: rest => if q = p then (p, d) :: rest else (q, e) :: setAssoc rest p d

/-- The filesystem: files (path to content) and existing directories. -/
structure World where
  files : List (FsPath × FileData)
  dirs : List FsPath
  deriving DecidableEq, Repr

/-- Association-list lookup (first binding wins). -/
def lookupAssoc : List (FsPath × FileData) → FsPath → Option FileData
  | [], _ => none
  | (q, e) :: rest, p => if q = p then some e else lookupAssoc rest p

/-- Content of the regular file at `p`, if any. -/
def World.lookupFile (w : World) (p : FsPath) : Option FileData :=
  lookupAssoc w.files p

/-- Write (create or overwrite) the regular file at `p`. -/
def World.setFile (w : World) (p : FsPath) (d : FileData) : World :=
  { w with files := setAssoc w.files p d }

/-- `Path.is_dir`. -/
def World.isDir (w : World) (p : FsPath) : Bool := decide (p ∈ w.dirs)

/-- `Path.mkdir(parents=True, exist_ok=True)`: ensure the directory exists. -/
def World.mkdirP (w : World) (p : FsPath) : World :=
  if p ∈ w.dirs then w else { w with dirs := p :: w.dirs }

/-- Errors raised by the modelled Python code. -/
inductive PyErr where
  /-- `KeyError` from a pandas column or cell access. -/
  | keyError (k : String)
  /-- `TypeError` from `Path / v` with a non-string `v`. -/
  | typeError
  /-- `FileNotFoundError` raised by `shutil.copy2` when the source blob is
  missing; this realizes the abstract `SourceBlobMissing` of the spec. -/
  | fileNotFound
  /-- `sqlite3.OperationalError` (for example: no such table). -/
  | operationalError
  /-- `sqlite3.DatabaseError` (file is not a database). -/
  | databaseError
  /-- `ValueError` from assigning a column of mismatched length. -/
  | valueError
  /-- `KeyboardInterrupt` delivered by an external interrupt. -/
  | keyboardInterrupt
  deriving DecidableEq, Repr

/-! ## Metadata Reader: `read_db` (source lines 14-43) -/

/-- Insert a record into a list that is ascending by `date`, keeping it
ascending.  Together with `sortByDate` this models the `order by l.modified`
clause of the query: the output is some ordering of the joined rows that is
ascending by the `modified` timestamp. -/
def insertByDate (r : ExRec) : List ExRec → List ExRec
  | [] => [r]
  | x :: xs => if r.date ≤ x.date then r :: x :: xs else x :: insertByDate r xs

/-- Sort the joined rows ascending by `date` (`order by l.modified`). -/
def sortByDate : List ExRec → List ExRec
  | [] => []
  | x :: xs => insertByDate x (sortByDate xs)

/-- The four-way inner join of the query (source lines 18-31): one output
row per combination of rows of the four tables sharing an `example_id`. -/
def joinRows (db : Database) : List ExRec :=
  db.example_images.flatMap fun i =>
    (db.example_labels.filter (fun l => l.example_id = i.example_id)).flatMap fun l =>
      (db.example_metrics.filter (fun m => m.example_id = i.example_id)).flatMap fun m =>
        (db.examples.filter (fun e => e = i.example_id)).map fun _ =>
          { example_id := i.example_id
            hash := i.hash
            filename := i.metadata_filename
            label := l.label
            date := l.modified
            accuracy := m.accuracy }

/-- The record sequence produced by the query of `read_db`: the join,
ordered ascending by the label-modification timestamp. -/
def read_db_rows (db : Database) : List ExRec := sortByDate (joinRows db)

def valueOfOptStr : Option String → Value
  | some s => .str s
  | none => .null

def valueOfOptInt : Option Int → Value
  | some n => .int n
  | none => .null

/-- The dict appended per row by `read_db` (source lines 35-42). -/
def recToItem (r : ExRec) : List (String × Value) :=
  [("example_id", .int r.example_id),
   ("hash", .str r.hash),
   ("filename", valueOfOptStr r.filename),
   ("label", .str r.label),
   ("date", .int r.date),
   ("accuracy", valueOfOptInt r.accuracy)]

/-- The six data cells of a record, in column order. -/
def recToCells (r : ExRec) : List Value :=
  [.int r.example_id, .str r.hash, valueOfOptStr r.filename,
   .str r.label, .int r.date, valueOfOptInt r.accuracy]

/-- A pandas `DataFrame`: named columns and one key-value row per record. -/
structure DataFrame where
  columns : List String
  rows : List (List (String × Value))
  deriving DecidableEq, Repr

/-- `pd.DataFrame(items)` for a list of dicts sharing one key set: the
columns are the keys of the dicts; for an empty list the frame has NO
columns (this is what `pd.DataFrame([])` produces). -/
def pdDataFrame (items : List (List (String × Value))) : DataFrame :=
  match items with
  | [] => ⟨[], []⟩
  | it :: _ => ⟨it.map Prod.fst, items⟩

/-- `read_db` (source lines 14-43), with the filesystem passed explicitly.
`sqlite3.connect` on a nonexistent path creates an empty database file;
the query then fails at execution time with no-such-table.  On an existing
file that is not a database, the query fails with a database error.  On a
valid store the joined, ordered records are returned as a `DataFrame`. -/
def read_db (w : World) (p : FsPath) : World × Except PyErr DataFrame :=
  if w.isDir p then (w, .error .operationalError)
  else
    match w.lookupFile p with
    | some (.store d) => (w, .ok (pdDataFrame ((read_db_rows d).map recToItem)))
    | some .emptyStore => (w, .error .operationalError)
    | some _ => (w, .error .databaseError)
    | none => (w.setFile p .emptyStore, .error .operationalError)

/-! ## DataFrame operations used by `__main__` -/

/-- `df[c]` as a column read (source line 133): `KeyError` if the column is
absent, else the list of cell values in row order. -/
def dfGetCol (df : DataFrame) (c : String) : Except PyErr (List Value) :=
  if df.columns.contains c then
    .ok (df.rows.map (fun r => ((r.lookup c).getD .null)))
  else .error (.keyError c)

/-- `df[c] = vs` for a fresh column `c` (source line 150): `ValueError` if
the length does not match the row count, else the column is appended. -/
def dfSetCol (df : DataFrame) (c : String) (vs : List Value) :
    Except PyErr DataFrame :=
  if vs.length = df.rows.length then
    .ok ⟨df.columns ++ [c],
         (df.rows.zip vs).map (fun rv => rv.1 ++ [(c, rv.2)])⟩
  else .error .valueError

/-- The cell of a row under column `c` as serialized by `to_csv`. -/
def cellOf (row : List (String × Value)) (c : String) : Value :=
  (row.lookup c).getD .null

/-- `df.to_csv(path, index=False)` content (source line 154): a header row
naming every column and one cell row per record, in row order. -/
def dfToCsv (df : DataFrame) : FileData :=
  .csv df.columns (df.rows.map (fun r => df.columns.map (fun c => cellOf r c)))

/-- `f"{v}"` and `list(df[c])` string extraction.  In every reachable state
of the pipeline the hash column holds strings. -/
def strOfValue : Value → String
  | .str s => s
  | .int n => toString n
  | .null => "None"

/-! ## Fingerprint Worker Pool (source lines 46-75) -/

/-- `get_image_phash` (source lines 46-48): the perceptual hash of a decoded
image; `ph` is the external `imagehash.phash` algorithm, an arbitrary pure
function of the image content. -/
def get_image_phash (ph : List Nat → String) (img : List Nat) : String := ph img

/-- `get_img` (source lines 51-58): `None` when the path is not a regular
file, or when `Image.open` cannot decode it (the bare except). -/
def get_img (w : World) (path : FsPath) : Option (List Nat) :=
  match w.lookupFile path with
  | some (.image px) => some px
  | _ => none

/-- `run` (source lines 65-69): fingerprint one identifier, `None` on any
per-item failure. -/
def run (ph : List Nat → String) (w : World) (photo_id : String)
    (base_path : FsPath) : Option String :=
  match get_img w (base_path ++ [photo_id]) with
  | none => none
  | some img => some (get_image_phash ph img)

/-- `run_unpack` (source lines 61-62). -/
def run_unpack (ph : List Nat → String) (w : World) (p : String × FsPath) :
    Option String :=
  run ph w p.1 p.2

/-- The result buffer of `Pool.imap`: each completed item deposits its
result keyed by its input index; `order` is the completion order. -/
def poolBuffer {α : Type} (g : Nat → α) (order : List Nat) : List (Nat × α) :=
  order.map (fun i => (i, g i))

/-- `Pool.imap` over `n` items: results are yielded re-sequenced in input
order, whatever the completion order was.  (`chunksize` groups consecutive
indices into one task; it does not change the per-index result.) -/
def poolImap {α : Type} (g : Nat → α) (n : Nat) (order : List Nat) : List α :=
  (List.range n).filterMap (fun i => (poolBuffer g order).lookup i)

/-- `calc_phashes` (source lines 72-75).  NOTE, faithful to the source:
line 74 builds `params` with the module-global `blob_path` (here the
explicit argument `glob_blob_path`), not with the `base_path` parameter of
the function, which the body never uses.  `workers` only sets the pool
size and does not influence which results are produced. -/
def calc_phashes (ph : List Nat → String) (w : World) (glob_blob_path : FsPath)
    (base_path : FsPath) (names : List String) (workers : Nat)
    (order : List Nat) : List (Option String) :=
  let params := names.map (fun name => (name, glob_blob_path))
  poolImap (fun i => run_unpack ph w (params.getD i ("", []))) params.length order

/-! ## Exporter: `copy_files` (source lines 78-86) -/

/-- `x[k]` on a pandas row: `KeyError` when the column is absent. -/
def seriesGet (row : List (String × Value)) (k : String) : Except PyErr Value :=
  match row.lookup k with
  | some v => .ok v
  | none => .error (.keyError k)

/-- `base / v` for a cell value: `TypeError` unless `v` is a string. -/
def asPathSeg : Value → Except PyErr String
  | .str s => .ok s
  | _ => .error .typeError

/-- One iteration of the copy loop (source lines 81-86): read the hash and
label cells, build `a = base_in / f` and `b = base_out / subdir / f.jpg`,
ensure `b.parent` exists, then `shutil.copy2(a, b)` which overwrites `b`
with the content of `a` or raises `FileNotFoundError` when `a` is absent.
The world returned with an error reflects the work already done before the
raise (the mkdir precedes the copy). -/
def copyOne (base_in base_out : FsPath) (w : World)
    (row : List (String × Value)) : World × Option PyErr :=
  match seriesGet row "hash" with
  | .error e => (w, some e)
  | .ok fv =>
    match seriesGet row "label" with
    | .error e => (w, some e)
    | .ok sv =>
      match asPathSeg fv with
      | .error e => (w, some e)
      | .ok f =>
        match asPathSeg sv with
        | .error e => (w, some e)
        | .ok subdir =>
          let a := base_in ++ [f]
          let b := base_out ++ [subdir, f ++ ".jpg"]
          let w1 := w.mkdirP (base_out ++ [subdir])
          match w1.lookupFile a with
          | none => (w1, some .fileNotFound)
          | some c => (w1.setFile b c, none)

/-- The copy loop over the rows of the frame: an exception aborts the
remaining iterations, keeping the partial work. -/
def copyRows (base_in base_out : FsPath) (w : World) :
    List (List (String × Value)) → World × Option PyErr
  | [] => (w, none)
  | row :: rest =>
    match copyOne base_in base_out w row with
    | (w1, none) => copyRows base_in base_out w1 rest
    | (w1, some e) => (w1, some e)

/-- `copy_files` (source lines 78-86): iterate the rows of `df` in order. -/
def copy_files (df : DataFrame) (base_in base_out : FsPath) (w : World) :
    World × Option PyErr :=
  copyRows base_in base_out w df.rows

/-- The source path `base_in / content_hash` read for a record. -/
def srcPath (base_in : FsPath) (r : ExRec) : FsPath := base_in ++ [r.hash]

/-- The destination path `base_out / label / content_hash.jpg` of a record. -/
def destPath (base_out : FsPath) (r : ExRec) : FsPath :=
  base_out ++ [r.label, r.hash ++ ".jpg"]

/-- The copy loop specialized to record lists (the rows `read_db` builds);
proved below to agree with `copy_files` on `recToItem` rows. -/
def copyRecs (base_in base_out : FsPath) (w : World) :
    List ExRec → World × Option PyErr
  | [] => (w, none)
  | r :: rest =>
    match w.lookupFile (srcPath base_in r) with
    | none => (w.mkdirP (base_out ++ [r.label]), some .fileNotFound)
    | some c =>
      copyRecs base_in base_out
        ((w.mkdirP (base_out ++ [r.label])).setFile (destPath base_out r) c) rest

/-- The frame `read_db` produces for a record list. -/
def dfOfRecs (recs : List ExRec) : DataFrame :=
  pdDataFrame (recs.map recToItem)

/-! ## Orchestrator: `__main__` (source lines 124-156)

The run is modelled as a sequence of stages.  An external interrupt is an
explicit parameter `intr`: `some s` means a `KeyboardInterrupt` is raised
when stage `s` starts executing (if the run ever reaches it).  Stages
`sPhash`, `sCopy` and `sWriteCsv` sit inside the `try` block of lines
145-156 whose handler calls the bare `exit()`; an interrupt there ends the
run cleanly.  An interrupt at the earlier stages is an uncaught exception:
the interpreter prints a traceback and exits nonzero. -/

/-- The points of the run at which an interrupt can arrive. -/
inductive Stage where
  | sReadDb | sGetNames | sCheckOutput | sMkOutput | sPhash | sCopy | sWriteCsv
  deriving DecidableEq, Repr

/-- How the process ends. -/
inductive Outcome where
  /-- Manifest written, exit status zero. -/
  | success
  /-- Diagnostic printed and `exit(1)` (source lines 141-142). -/
  | exitNonZero
  /-- `exit()` from the `KeyboardInterrupt` handler: no traceback. -/
  | cleanExit
  /-- Uncaught exception: traceback printed, nonzero exit status. -/
  | crashed (e : PyErr)
  deriving DecidableEq, Repr

/-- The parsed command line (source lines 89-121). -/
structure Args where
  lobe_project : String
  workers : Option Nat
  phash : Bool
  output_dir : Option FsPath
  deriving Repr

/-- `db_path` of source line 129 (path expansion is out of scope; the
expanded projects directory is the parameter `lobeBase`). -/
def mkDbPath (lobeBase : FsPath) (project : String) : FsPath :=
  lobeBase ++ [project, "db.sqlite"]

/-- `blob_path` of source line 130 (`data/blobs` is two components). -/
def mkBlobPath (lobeBase : FsPath) (project : String) : FsPath :=
  lobeBase ++ [project, "data", "blobs"]

/-- The manifest path `output_path / f"lobe-{project}.csv"` (lines 153-154). -/
def manifestPath (output_path : FsPath) (project : String) : FsPath :=
  output_path ++ ["lobe-" ++ project ++ ".csv"]

/-- Final stage (source lines 153-154): write the manifest csv. -/
def stageCsv (project : String) (output_path : FsPath) (intr : Option Stage)
    (w : World) (df : DataFrame) : World × Outcome :=
  if intr = some .sWriteCsv then (w, .cleanExit)
  else (w.setFile (manifestPath output_path project) (dfToCsv df), .success)

/-- Copy stage (source lines 151-152): a raised error other than the
interrupt escapes the `try` (its handler only catches the interrupt). -/
def stageCopy (project : String) (blob_path output_path : FsPath)
    (intr : Option Stage) (w : World) (df : DataFrame) : World × Outcome :=
  if intr = some .sCopy then (w, .cleanExit)
  else
    match copy_files df blob_path output_path w with
    | (w1, some e) => (w1, .crashed e)
    | (w1, none) => stageCsv project output_path intr w1 df

/-- Optional fingerprint stage (source lines 146-150): compute the phash
column and attach it to the frame.  `n` follows line 147: a falsy
`--workers` value (absent or zero) selects `cpu_count()`. -/
def stagePhash (ph : List Nat → String) (cpu : Nat) (order : List Nat)
    (args : Args) (blob_path output_path : FsPath) (intr : Option Stage)
    (w : World) (df : DataFrame) (names : List String) : World × Outcome :=
  if intr = some .sPhash then (w, .cleanExit)
  else
    match (if args.phash then
             let n := match args.workers with
                      | some k => if k = 0 then cpu else k
                      | none => cpu
             dfSetCol df "phash"
               ((calc_phashes ph w blob_path blob_path names n order).map
                 valueOfOptStr)
           else .ok df) with
    | .error e => (w, .crashed e)
    | .ok df1 => stageCopy args.lobe_project blob_path output_path intr w df1

/-- The whole run of `__main__` (source lines 124-156): read the metadata,
extract the hash column, validate the output location, then inside the
`try` optionally fingerprint, copy, and write the manifest. -/
def mainRun (ph : List Nat → String) (cpu : Nat) (order : List Nat)
    (lobeBase : FsPath) (args : Args) (intr : Option Stage) (w : World) :
    World × Outcome :=
  let project := args.lobe_project
  let db_path := mkDbPath lobeBase project
  let blob_path := mkBlobPath lobeBase project
  if intr = some .sReadDb then (w, .crashed .keyboardInterrupt)
  else
    match read_db w db_path with
    | (w1, .error e) => (w1, .crashed e)
    | (w1, .ok df) =>
      if intr = some .sGetNames then (w1, .crashed .keyboardInterrupt)
      else
        match dfGetCol df "hash" with
        | .error e => (w1, .crashed e)
        | .ok nameVals =>
          let names := nameVals.map strOfValue
          let output_path := args.output_dir.getD []
          if intr = some .sCheckOutput then (w1, .crashed .keyboardInterrupt)
          else
            if w1.isDir output_path then
              if intr = some .sMkOutput then (w1, .crashed .keyboardInterrupt)
              else
                stagePhash ph cpu order args blob_path output_path intr
                  (w1.mkdirP output_path) df names
            else (w1, .exitNonZero)

/-! ## Basic filesystem lemmas -/

theorem lookup_setAssoc (p q : FsPath) (d : FileData) :
    ∀ (xs : List (FsPath × FileData)),
      lookupAssoc (setAssoc xs p d) q
        = if q = p then some d else lookupAssoc xs q := by
  intro xs
  induction xs with
  | nil =>
    by_cases h : q = p
    · subst h; simp [setAssoc, lookupAssoc]
    · have h2 : ¬ p = q := fun hh => h hh.symm
      simp [setAssoc, lookupAssoc, h, h2]
  | cons x rest ih =>
    obtain ⟨a, e⟩ := x
    by_cases hap : a = p
    · subst hap
      by_cases hq : q = a
      · subst hq; simp [setAssoc, lookupAssoc]
      · have h2 : ¬ a = q := fun hh => hq hh.symm
        simp [setAssoc, lookupAssoc, hq, h2]
    · by_cases haq : a = q
      · subst haq
        simp [setAssoc, lookupAssoc, hap]
      · simp [setAssoc, lookupAssoc, hap, haq, ih]

theorem lookupFile_setFile (w : World) (p q : FsPath) (d : FileData) :
    (w.setFile p d).lookupFile q
      = if q = p then some d else w.lookupFile q := by
  unfold World.lookupFile World.setFile
  exact lookup_setAssoc p q d w.files

theorem lookupFile_setFile_self (w : World) (p : FsPath) (d : FileData) :
    (w.setFile p d).lookupFile p = some d := by
  rw [lookupFile_setFile, if_pos rfl]

theorem lookupFile_setFile_ne (w : World) (p q : FsPath) (d : FileData)
    (h : q ≠ p) : (w.setFile p d).lookupFile q = w.lookupFile q := by
  rw [lookupFile_setFile, if_neg h]

theorem setAssoc_of_lookup (p : FsPath) (d : FileData) :
    ∀ (xs : List (FsPath × FileData)), lookupAssoc xs p = some d →
      setAssoc xs p d = xs := by
  intro xs
  induction xs with
  | nil => intro h; cases h
  | cons x rest ih =>
    obtain ⟨a, e⟩ := x
    intro h
    by_cases hap : a = p
    · subst hap
      simp only [lookupAssoc, if_pos rfl] at h
      cases h
      simp [setAssoc]
    · simp only [lookupAssoc, if_neg hap] at h
      simp [setAssoc, hap, ih h]

theorem setFile_of_lookup (w : World) (p : FsPath) (d : FileData)
    (h : w.lookupFile p = some d) : w.setFile p d = w := by
  unfold World.lookupFile at h
  unfold World.setFile
  rw [setAssoc_of_lookup p d w.files h]

theorem files_mkdirP (w : World) (p : FsPath) :
    (w.mkdirP p).files = w.files := by
  unfold World.mkdirP
  split <;> rfl

theorem lookupFile_mkdirP (w : World) (p q : FsPath) :
    (w.mkdirP p).lookupFile q = w.lookupFile q := by
  unfold World.lookupFile
  rw [files_mkdirP]

theorem dirs_setFile (w : World) (p : FsPath) (d : FileData) :
    (w.setFile p d).dirs = w.dirs := rfl

theorem mkdirP_dirs_mem (w : World) (p q : FsPath) (h : q ∈ w.dirs) :
    q ∈ (w.mkdirP p).dirs := by
  unfold World.mkdirP
  split
  · exact h
  · exact List.mem_cons_of_mem _ h

theorem mkdirP_self_mem (w : World) (p : FsPath) : p ∈ (w.mkdirP p).dirs := by
  unfold World.mkdirP
  split
  · next h => exact h
  · exact List.mem_cons_self _ _

theorem mkdirP_of_mem (w : World) (p : FsPath) (h : p ∈ w.dirs) :
    w.mkdirP p = w := by
  unfold World.mkdirP
  rw [if_pos h]

/-! ## Worker pool lemmas -/

theorem poolBuffer_lookup {α : Type} (g : Nat → α) (order : List Nat)
    (i : Nat) (h : i ∈ order) :
    (poolBuffer g order).lookup i = some (g i) := by
  induction order with
  | nil => cases h
  | cons j rest ih =>
    by_cases hij : i = j
    · subst hij
      simp [poolBuffer, List.lookup]
    · have hmem : i ∈ rest := by
        cases List.mem_cons.mp h with
        | inl hh => exact absurd hh hij
        | inr hh => exact hh
      have hb : (i == j) = false := by simpa using hij
      have hrest := ih hmem
      simp only [poolBuffer] at hrest
      simp [poolBuffer, List.lookup, hb, hrest]

theorem filterMap_lookup_eq_map {α : Type} (g : Nat → α) (order : List Nat) :
    ∀ (l : List Nat), (∀ i ∈ l, i ∈ order) →
      l.filterMap (fun i => (poolBuffer g order).lookup i) = l.map g := by
  intro l
  induction l with
  | nil => intro _; rfl
  | cons x xs ih =>
    intro h
    rw [List.filterMap_cons, poolBuffer_lookup g order x (h x (by simp))]
    rw [List.map_cons, ih (fun i hi => h i (List.mem_cons_of_mem _ hi))]

theorem poolImap_eq_map {α : Type} (g : Nat → α) (n : Nat) (order : List Nat)
    (h : order.Perm (List.range n)) :
    poolImap g n order = (List.range n).map g := by
  unfold poolImap
  exact filterMap_lookup_eq_map g order (List.range n)
    (fun i hi => h.mem_iff.mpr hi)

theorem range_map_getD {α β : Type} (f : α → β) (d : α) :
    ∀ (l : List α),
      (List.range l.length).map (fun i => f (l.getD i d)) = l.map f := by
  intro l
  induction l with
  | nil => rfl
  | cons x xs ih =>
    rw [List.length_cons, List.range_succ_eq_map, List.map_cons,
      List.map_map]
    rw [show ((fun i => f ((x :: xs).getD i d)) ∘ Nat.succ)
          = (fun i => f (xs.getD i d)) from rfl]
    rw [ih]
    rfl

/-- Normal form of `calc_phashes`: for any completion order that is a
permutation of the item indices, the output is the input-ordered map of
`run` over the identifiers, resolved against the global blob path. -/
theorem calc_phashes_eq_map (ph : List Nat → String) (w : World)
    (gbp bp : FsPath) (names : List String) (workers : Nat)
    (order : List Nat) (h : order.Perm (List.range names.length)) :
    calc_phashes ph w gbp bp names workers order
      = names.map (fun nm => run ph w nm gbp) := by
  show poolImap
      (fun i => run_unpack ph w
        ((names.map (fun name => (name, gbp))).getD i ("", [])))
      (names.map (fun name => (name, gbp))).length order
    = names.map (fun nm => run ph w nm gbp)
  rw [List.length_map]
  rw [poolImap_eq_map _ _ _ h]
  have hpt : ∀ i : Nat, i < names.length →
      run_unpack ph w ((names.map (fun name => (name, gbp))).getD i ("", []))
        = run ph w (names.getD i "") gbp := by
    intro i hi
    have h1 : (names.map (fun name => (name, gbp))).getD i ("", [])
        = (names.getD i "", gbp) := by
      simp only [List.getD_eq_getElem?_getD, List.getElem?_map]
      cases hx : names[i]? with
      | none => rw [List.getElem?_eq_none_iff] at hx; omega
      | some v => rfl
    rw [h1]; rfl
  calc (List.range names.length).map
        (fun i => run_unpack ph w
          ((names.map (fun name => (name, gbp))).getD i ("", [])))
      = (List.range names.length).map
          (fun i => run ph w (names.getD i "") gbp) := by
        apply List.map_congr_left
        intro i hi
        exact hpt i (List.mem_range.mp hi)
    _ = names.map (fun nm => run ph w nm gbp) :=
        range_map_getD (fun nm => run ph w nm gbp) "" names

/-- C1: the Fingerprint Worker Pool returns one result per input, aligned
with the input order: for every worker count and every completion order the
result at position i is the fingerprint outcome of the identifier at
position i, so the output does not depend on the worker count or on the
completion order. -/
theorem calc_phashes_input_aligned (ph : List Nat → String) (w : World)
    (gbp bp : FsPath) (names : List String) (workers workers2 : Nat)
    (order order2 : List Nat)
    (h : order.Perm (List.range names.length))
    (h2 : order2.Perm (List.range names.length)) :
    (calc_phashes ph w gbp bp names workers order).length = names.length ∧
    (∀ i, i < names.length →
      (calc_phashes ph w gbp bp names workers order).getD i none
        = run ph w (names.getD i "") gbp) ∧
    calc_phashes ph w gbp bp names workers order
      = calc_phashes ph w gbp bp names workers2 order2 := by
  rw [calc_phashes_eq_map ph w gbp bp names workers order h,
    calc_phashes_eq_map ph w gbp bp names workers2 order2 h2]
  refine ⟨List.length_map _ _, ?_, rfl⟩
  intro i hi
  simp only [List.getD_eq_getElem?_getD, List.getElem?_map]
  cases hx : names[i]? with
  | none => rw [List.getElem?_eq_none_iff] at hx; omega
  | some v => rfl

/-- Witness for C1: two identifiers, two workers, reversed completion
order; the first identifier resolves to a decodable image file, the second
to nothing. -/
theorem calc_phashes_input_aligned_witness :
    (List.Perm [1, 0] (List.range 2) ∧ List.Perm [0, 1] (List.range 2)) ∧
    ((calc_phashes (fun px => toString px.length)
        ⟨[(["g", "a"], .image [5, 6])], []⟩ ["g"] ["g"] ["a", "b"] 2 [1, 0]).length
          = 2 ∧
     (∀ i, i < 2 →
       (calc_phashes (fun px => toString px.length)
          ⟨[(["g", "a"], .image [5, 6])], []⟩ ["g"] ["g"] ["a", "b"] 2 [1, 0]).getD i none
         = run (fun px => toString px.length)
             ⟨[(["g", "a"], .image [5, 6])], []⟩ (["a", "b"].getD i "") ["g"]) ∧
     calc_phashes (fun px => toString px.length)
        ⟨[(["g", "a"], .image [5, 6])], []⟩ ["g"] ["g"] ["a", "b"] 2 [1, 0]
       = calc_phashes (fun px => toString px.length)
          ⟨[(["g", "a"], .image [5, 6])], []⟩ ["g"] ["g"] ["a", "b"] 7 [0, 1]) :=
  ⟨⟨by decide, by decide⟩,
   calc_phashes_input_aligned (fun px => toString px.length)
     ⟨[(["g", "a"], .image [5, 6])], []⟩ ["g"] ["g"] ["a", "b"] 2 7 [1, 0] [0, 1]
     (by decide) (by decide)⟩

theorem map_eraseIdx {α β : Type} (f : α → β) :
    ∀ (l : List α) (i : Nat), (l.map f).eraseIdx i = (l.eraseIdx i).map f := by
  intro l
  induction l with
  | nil => intro i; rfl
  | cons x xs ih =>
    intro i
    cases i with
    | zero => rfl
    | succ j =>
      simp only [List.map_cons, List.eraseIdx_cons_succ, List.map_cons, ih]

/-- `run` depends on the filesystem only through the file it resolves. -/
theorem run_congr (ph : List Nat → String) (w w2 : World) (nm : String)
    (bp : FsPath) (h : w2.lookupFile (bp ++ [nm]) = w.lookupFile (bp ++ [nm])) :
    run ph w2 nm bp = run ph w nm bp := by
  unfold run get_img
  rw [h]

/-- C3: a per-item failure (identifier whose resolved path is not a regular
file or whose file does not decode as an image) yields `None` at that
position; the batch still returns one result per input, and the results at
the other positions are exactly those of the batch without the failing
item. -/
theorem calc_phashes_soft_failure (ph : List Nat → String) (w : World)
    (gbp bp : FsPath) (names : List String) (workers workers2 : Nat)
    (order order2 : List Nat) (i : Nat)
    (horder : order.Perm (List.range names.length))
    (horder2 : order2.Perm (List.range (names.eraseIdx i).length))
    (hi : i < names.length)
    (hbad : get_img w (gbp ++ [names.getD i ""]) = none) :
    (calc_phashes ph w gbp bp names workers order).length = names.length ∧
    (calc_phashes ph w gbp bp names workers order).getD i none = none ∧
    (calc_phashes ph w gbp bp names workers order).eraseIdx i
      = calc_phashes ph w gbp bp (names.eraseIdx i) workers2 order2 := by
  rw [calc_phashes_eq_map ph w gbp bp names workers order horder,
    calc_phashes_eq_map ph w gbp bp (names.eraseIdx i) workers2 order2 horder2]
  refine ⟨List.length_map _ _, ?_, map_eraseIdx _ names i⟩
  simp only [List.getD_eq_getElem?_getD, List.getElem?_map]
  cases hx : names[i]? with
  | none => rw [List.getElem?_eq_none_iff] at hx; omega
  | some v =>
    have hv : names.getD i "" = v := by
      rw [List.getD_eq_getElem?_getD, hx]; rfl
    rw [hv] at hbad
    show run ph w v gbp = none
    unfold run
    rw [hbad]

/-- Witness for C3: two identifiers, the second one missing from disk. -/
theorem calc_phashes_soft_failure_witness :
    (List.Perm [1, 0] (List.range 2) ∧ List.Perm [0] (List.range 1) ∧
      1 < 2 ∧
      get_img ⟨[(["g", "a"], .image [5, 6])], []⟩ (["g"] ++ [["a", "b"].getD 1 ""])
        = none) ∧
    ((calc_phashes (fun px => toString px.length)
        ⟨[(["g", "a"], .image [5, 6])], []⟩ ["g"] ["g"] ["a", "b"] 2 [1, 0]).length
          = 2 ∧
     (calc_phashes (fun px => toString px.length)
        ⟨[(["g", "a"], .image [5, 6])], []⟩ ["g"] ["g"] ["a", "b"] 2 [1, 0]).getD 1 none
          = none ∧
     (calc_phashes (fun px => toString px.length)
        ⟨[(["g", "a"], .image [5, 6])], []⟩ ["g"] ["g"] ["a", "b"] 2 [1, 0]).eraseIdx 1
       = calc_phashes (fun px => toString px.length)
          ⟨[(["g", "a"], .image [5, 6])], []⟩ ["g"] ["g"] (["a", "b"].eraseIdx 1) 9 [0]) :=
  ⟨⟨by decide, by decide, by decide, by decide⟩,
   calc_phashes_soft_failure (fun px => toString px.length)
     ⟨[(["g", "a"], .image [5, 6])], []⟩ ["g"] ["g"] ["a", "b"] 2 9 [1, 0] [0] 1
     (by decide) (by decide) (by decide) (by decide)⟩

/-- C9 (code bug witness): `calc_phashes` ignores its base-directory
argument and reads through the module-global `blob_path` (source line 74
uses `blob_path`, not the parameter `base_path`).  Concretely: with the
global blob directory `g` holding an image at `g/x`, a call passing the
base directory `b` - under which no file exists at all - still produces a
fingerprint, where resolving `b/x` would have produced the absent value. -/
theorem calc_phashes_ignores_base_dir_argument :
    calc_phashes (fun px => toString px.length)
        ⟨[(["g", "x"], .image [7])], []⟩ ["g"] ["b"] ["x"] 1 [0]
      = [some "1"] ∧
    World.lookupFile ⟨[(["g", "x"], .image [7])], []⟩ ["b", "x"] = none := by
  exact ⟨by decide, by decide⟩

/-! ## Copy loop lemmas -/

theorem copyOne_recToItem (bin bout : FsPath) (w : World) (r : ExRec) :
    copyOne bin bout w (recToItem r)
      = match w.lookupFile (bin ++ [r.hash]) with
        | none => (w.mkdirP (bout ++ [r.label]), some PyErr.fileNotFound)
        | some c =>
            ((w.mkdirP (bout ++ [r.label])).setFile
              (bout ++ [r.label, r.hash ++ ".jpg"]) c, none) := by
  have h1 : seriesGet (recToItem r) "hash" = .ok (.str r.hash) := rfl
  have h2 : seriesGet (recToItem r) "label" = .ok (.str r.label) := rfl
  have h3 : (w.mkdirP (bout ++ [r.label])).lookupFile (bin ++ [r.hash])
      = w.lookupFile (bin ++ [r.hash]) := lookupFile_mkdirP w _ _
  simp only [copyOne, h1, h2, asPathSeg, h3]

/-- On the rows `read_db` builds, the copy loop is the record-level loop. -/
theorem copyRows_recs (bin bout : FsPath) :
    ∀ (recs : List ExRec) (w : World),
      copyRows bin bout w (recs.map recToItem) = copyRecs bin bout w recs := by
  intro recs
  induction recs with
  | nil => intro w; rfl
  | cons r rest ih =>
    intro w
    simp only [List.map_cons, copyRows, copyOne_recToItem]
    cases hc : w.lookupFile (bin ++ [r.hash]) with
    | none => simp [copyRecs, hc, srcPath]
    | some c => simp [copyRecs, hc, srcPath, destPath, ih]

theorem dfOfRecs_rows (recs : List ExRec) :
    (dfOfRecs recs).rows = recs.map recToItem := by
  cases recs <;> rfl

/-- `copy_files` on a frame of records is the record-level loop. -/
theorem copy_files_recs (recs : List ExRec) (bin bout : FsPath) (w : World) :
    copy_files (dfOfRecs recs) bin bout w = copyRecs bin bout w recs := by
  unfold copy_files
  rw [dfOfRecs_rows, copyRows_recs]

/-- The record-level copy loop touches no file outside the destination
paths of its records. -/
theorem copyRecs_frame (bin bout : FsPath) :
    ∀ (recs : List ExRec) (w : World) (p : FsPath),
      (∀ j, j < recs.length → p ≠ destPath bout (recs.getD j rec0)) →
      ((copyRecs bin bout w recs).1).lookupFile p = w.lookupFile p := by
  intro recs
  induction recs with
  | nil => intro w p _; rfl
  | cons r rest ih =>
    intro w p hp
    simp only [copyRecs]
    cases hc : w.lookupFile (srcPath bin r) with
    | none =>
      exact lookupFile_mkdirP w _ _
    | some c =>
      have hrest : ∀ j, j < rest.length → p ≠ destPath bout (rest.getD j rec0) := by
        intro j hj
        have := hp (j + 1) (by simpa using Nat.succ_lt_succ hj)
        simpa using this
      rw [ih _ p hrest]
      have hp0 : p ≠ destPath bout r := by
        have := hp 0 (by simp)
        simpa using this
      rw [lookupFile_setFile_ne _ _ _ _ hp0, lookupFile_mkdirP]

/-- Directories only accumulate along the copy loop. -/
theorem copyRecs_dirs_mono (bin bout : FsPath) :
    ∀ (recs : List ExRec) (w : World) (q : FsPath), q ∈ w.dirs →
      q ∈ ((copyRecs bin bout w recs).1).dirs := by
  intro recs
  induction recs with
  | nil => intro w q h; exact h
  | cons r rest ih =>
    intro w q h
    simp only [copyRecs]
    cases hc : w.lookupFile (srcPath bin r) with
    | none => exact mkdirP_dirs_mem w _ _ h
    | some c =>
      apply ih
      show q ∈ ((w.mkdirP (bout ++ [r.label])).setFile (destPath bout r) c).dirs
      rw [dirs_setFile]
      exact mkdirP_dirs_mem w _ _ h

/-- C4 core: with the first missing source blob at index k, the loop copies
records 0..k-1, raises the file-not-found error there, and leaves every
path outside the copied destinations unchanged. -/
theorem copyRecs_abort (bin bout : FsPath) :
    ∀ (recs : List ExRec) (k : Nat) (w : World),
      k < recs.length →
      (∀ i, i < recs.length → ∀ j, j < recs.length →
        srcPath bin (recs.getD i rec0) ≠ destPath bout (recs.getD j rec0)) →
      (∀ i, i < recs.length → ∀ j, j < recs.length → i ≠ j →
        destPath bout (recs.getD i rec0) ≠ destPath bout (recs.getD j rec0)) →
      (∀ j, j < k → (w.lookupFile (srcPath bin (recs.getD j rec0))).isSome = true) →
      w.lookupFile (srcPath bin (recs.getD k rec0)) = none →
      ∃ w2, copyRecs bin bout w recs = (w2, some PyErr.fileNotFound) ∧
        (∀ j, j < k → w2.lookupFile (destPath bout (recs.getD j rec0))
            = w.lookupFile (srcPath bin (recs.getD j rec0))) ∧
        (∀ p, (∀ j, j < k → p ≠ destPath bout (recs.getD j rec0)) →
          w2.lookupFile p = w.lookupFile p) := by
  intro recs
  induction recs with
  | nil => intro k w hk; simp at hk
  | cons r rest ih =>
    intro k w hk hdisj hdd hbefore hmiss
    cases k with
    | zero =>
      have hm : w.lookupFile (srcPath bin r) = none := by simpa using hmiss
      refine ⟨w.mkdirP (bout ++ [r.label]), ?_, ?_, ?_⟩
      · simp only [copyRecs, hm]
      · intro j hj; omega
      · intro p _; exact lookupFile_mkdirP w _ _
    | succ k1 =>
      have h0 : (w.lookupFile (srcPath bin r)).isSome = true := by
        have := hbefore 0 (Nat.succ_pos k1)
        simpa using this
      obtain ⟨c, hc⟩ := Option.isSome_iff_exists.mp h0
      have hk1 : k1 < rest.length := by
        have := hk; simp only [List.length_cons] at this; omega
      -- the world after copying the head record
      have hstep : copyRecs bin bout w (r :: rest)
          = copyRecs bin bout
              ((w.mkdirP (bout ++ [r.label])).setFile (destPath bout r) c) rest := by
        simp only [copyRecs, hc]
      set w1 := (w.mkdirP (bout ++ [r.label])).setFile (destPath bout r) c with hw1
      have hdisj2 : ∀ i, i < rest.length → ∀ j, j < rest.length →
          srcPath bin (rest.getD i rec0) ≠ destPath bout (rest.getD j rec0) := by
        intro i hi j hj
        have := hdisj (i + 1) (by simpa using Nat.succ_lt_succ hi)
          (j + 1) (by simpa using Nat.succ_lt_succ hj)
        simpa using this
      have hdd2 : ∀ i, i < rest.length → ∀ j, j < rest.length → i ≠ j →
          destPath bout (rest.getD i rec0) ≠ destPath bout (rest.getD j rec0) := by
        intro i hi j hj hij
        have := hdd (i + 1) (by simpa using Nat.succ_lt_succ hi)
          (j + 1) (by simpa using Nat.succ_lt_succ hj) (by omega)
        simpa using this
      have hsrc1 : ∀ j, j < rest.length →
          w1.lookupFile (srcPath bin (rest.getD j rec0))
            = w.lookupFile (srcPath bin (rest.getD j rec0)) := by
        intro j hj
        have hne : srcPath bin (rest.getD j rec0) ≠ destPath bout r := by
          have := hdisj (j + 1) (by simpa using Nat.succ_lt_succ hj) 0 (by simp)
          simpa using this
        rw [hw1, lookupFile_setFile_ne _ _ _ _ hne, lookupFile_mkdirP]
      have hbefore2 : ∀ j, j < k1 →
          (w1.lookupFile (srcPath bin (rest.getD j rec0))).isSome = true := by
        intro j hj
        rw [hsrc1 j (by omega)]
        have := hbefore (j + 1) (by omega)
        simpa using this
      have hmiss2 : w1.lookupFile (srcPath bin (rest.getD k1 rec0)) = none := by
        rw [hsrc1 k1 hk1]
        simpa using hmiss
      obtain ⟨w2, hrun, hcopied, hframe⟩ :=
        ih k1 w1 hk1 hdisj2 hdd2 hbefore2 hmiss2
      refine ⟨w2, by rw [hstep, hrun], ?_, ?_⟩
      · intro j hj
        cases j with
        | zero =>
          have hfr : w2.lookupFile (destPath bout r) = w1.lookupFile (destPath bout r) := by
            apply hframe
            intro j2 hj2
            have := hdd 0 (by simp) (j2 + 1) (by simp; omega) (by omega)
            simpa using this
          simp only [List.getD_cons_zero]
          rw [hfr, hw1, lookupFile_setFile_self, hc]
        | succ j1 =>
          have hj1 : j1 < k1 := by omega
          have := hcopied j1 hj1
          rw [hsrc1 j1 (by omega)] at this
          simpa using this
      · intro p hp
        have hp2 : ∀ j, j < k1 → p ≠ destPath bout (rest.getD j rec0) := by
          intro j hj
          have := hp (j + 1) (by omega)
          simpa using this
        rw [hframe p hp2]
        have hp0 : p ≠ destPath bout r := by
          have := hp 0 (by omega)
          simpa using this
        rw [hw1, lookupFile_setFile_ne _ _ _ _ hp0, lookupFile_mkdirP]

/-- C4: during export, the first record whose source blob
`input_dir/content_hash` is missing raises the file-not-found error (the
`SourceBlobMissing` of the spec) and aborts the remaining loop: every
earlier record has been copied (its destination holds the source content)
and the destination of no later record is touched.  (Destination paths
are assumed pairwise distinct and distinct from the source paths, as in
any normal layout where the blob directory is outside the output tree.) -/
theorem copy_files_aborts_on_first_missing
    (recs : List ExRec) (bin bout : FsPath) (w : World) (k : Nat)
    (hk : k < recs.length)
    (hdisj : ∀ i, i < recs.length → ∀ j, j < recs.length →
      srcPath bin (recs.getD i rec0) ≠ destPath bout (recs.getD j rec0))
    (hdd : ∀ i, i < recs.length → ∀ j, j < recs.length → i ≠ j →
      destPath bout (recs.getD i rec0) ≠ destPath bout (recs.getD j rec0))
    (hbefore : ∀ j, j < k →
      (w.lookupFile (srcPath bin (recs.getD j rec0))).isSome = true)
    (hmiss : w.lookupFile (srcPath bin (recs.getD k rec0)) = none) :
    ∃ w2, copy_files (dfOfRecs recs) bin bout w = (w2, some PyErr.fileNotFound) ∧
      (∀ j, j < k → w2.lookupFile (destPath bout (recs.getD j rec0))
          = w.lookupFile (srcPath bin (recs.getD j rec0))) ∧
      (∀ j, k ≤ j → j < recs.length →
        w2.lookupFile (destPath bout (recs.getD j rec0))
          = w.lookupFile (destPath bout (recs.getD j rec0))) := by
  obtain ⟨w2, h1, h2, h3⟩ :=
    copyRecs_abort bin bout recs k w hk hdisj hdd hbefore hmiss
  refine ⟨w2, ?_, h2, ?_⟩
  · rw [copy_files_recs]; exact h1
  · intro j hkj hj
    apply h3
    intro j2 hj2
    exact hdd j hj j2 (by omega) (by omega)

/-- Witness for C4: the 3-record scenario of the spec: records a1/cat,
b2/dog, c3/cat; blobs a1 and c3 exist, b2 does not: the export copies
output/cat/a1.jpg, raises at b2, and never touches c3. -/
theorem copy_files_aborts_on_first_missing_witness :
    (1 < ([⟨1, "a1", none, "cat", 1, none⟩, ⟨2, "b2", none, "dog", 2, none⟩,
          ⟨3, "c3", none, "cat", 3, none⟩] : List ExRec).length ∧
     (World.lookupFile ⟨[(["blobs", "a1"], .bytes [10]), (["blobs", "c3"], .bytes [30])],
        [["output"]]⟩
       (srcPath ["blobs"]
         (([⟨1, "a1", none, "cat", 1, none⟩, ⟨2, "b2", none, "dog", 2, none⟩,
            ⟨3, "c3", none, "cat", 3, none⟩] : List ExRec).getD 1 rec0)) = none)) ∧
    (∃ w2, copy_files
        (dfOfRecs [⟨1, "a1", none, "cat", 1, none⟩, ⟨2, "b2", none, "dog", 2, none⟩,
          ⟨3, "c3", none, "cat", 3, none⟩])
        ["blobs"] ["output"]
        ⟨[(["blobs", "a1"], .bytes [10]), (["blobs", "c3"], .bytes [30])], [["output"]]⟩
        = (w2, some PyErr.fileNotFound) ∧
      (∀ j, j < 1 → w2.lookupFile (destPath ["output"]
          (([⟨1, "a1", none, "cat", 1, none⟩, ⟨2, "b2", none, "dog", 2, none⟩,
             ⟨3, "c3", none, "cat", 3, none⟩] : List ExRec).getD j rec0))
        = World.lookupFile ⟨[(["blobs", "a1"], .bytes [10]), (["blobs", "c3"], .bytes [30])],
            [["output"]]⟩
            (srcPath ["blobs"]
              (([⟨1, "a1", none, "cat", 1, none⟩, ⟨2, "b2", none, "dog", 2, none⟩,
                 ⟨3, "c3", none, "cat", 3, none⟩] : List ExRec).getD j rec0))) ∧
      (∀ j, 1 ≤ j → j < 3 →
        w2.lookupFile (destPath ["output"]
          (([⟨1, "a1", none, "cat", 1, none⟩, ⟨2, "b2", none, "dog", 2, none⟩,
             ⟨3, "c3", none, "cat", 3, none⟩] : List ExRec).getD j rec0))
          = World.lookupFile ⟨[(["blobs", "a1"], .bytes [10]), (["blobs", "c3"], .bytes [30])],
              [["output"]]⟩
              (destPath ["output"]
                (([⟨1, "a1", none, "cat", 1, none⟩, ⟨2, "b2", none, "dog", 2, none⟩,
                   ⟨3, "c3", none, "cat", 3, none⟩] : List ExRec).getD j rec0)))) :=
  ⟨⟨by decide, by decide⟩,
   copy_files_aborts_on_first_missing
     [⟨1, "a1", none, "cat", 1, none⟩, ⟨2, "b2", none, "dog", 2, none⟩,
      ⟨3, "c3", none, "cat", 3, none⟩]
     ["blobs"] ["output"]
     ⟨[(["blobs", "a1"], .bytes [10]), (["blobs", "c3"], .bytes [30])], [["output"]]⟩
     1 (by decide) (by decide) (by decide) (by decide) (by decide)⟩

/-- C5 counterexample: with the blob directory inside the output tree
(`base_in = out/lab`, `base_out = out`), the record list
`[hash=h.jpg/label=lab, hash=h/label=lab]` makes the first copy write
`out/lab/h.jpg.jpg` from `out/lab/h.jpg` and the second copy overwrite
`out/lab/h.jpg` itself; the second run then copies the overwritten
content, so the final states of the two runs differ at
`out/lab/h.jpg.jpg`.  Both runs succeed. -/
theorem copy_files_not_idempotent_on_overlap :
    (copy_files (dfOfRecs [⟨1, "h.jpg", none, "lab", 0, none⟩,
        ⟨2, "h", none, "lab", 0, none⟩]) ["out", "lab"] ["out"]
      ⟨[(["out", "lab", "h.jpg"], .bytes [1]), (["out", "lab", "h"], .bytes [2])],
        [["out"], ["out", "lab"]]⟩).2 = none ∧
    (copy_files (dfOfRecs [⟨1, "h.jpg", none, "lab", 0, none⟩,
        ⟨2, "h", none, "lab", 0, none⟩]) ["out", "lab"] ["out"]
      (copy_files (dfOfRecs [⟨1, "h.jpg", none, "lab", 0, none⟩,
          ⟨2, "h", none, "lab", 0, none⟩]) ["out", "lab"] ["out"]
        ⟨[(["out", "lab", "h.jpg"], .bytes [1]), (["out", "lab", "h"], .bytes [2])],
          [["out"], ["out", "lab"]]⟩).1).2 = none ∧
    (copy_files (dfOfRecs [⟨1, "h.jpg", none, "lab", 0, none⟩,
        ⟨2, "h", none, "lab", 0, none⟩]) ["out", "lab"] ["out"]
      (copy_files (dfOfRecs [⟨1, "h.jpg", none, "lab", 0, none⟩,
          ⟨2, "h", none, "lab", 0, none⟩]) ["out", "lab"] ["out"]
        ⟨[(["out", "lab", "h.jpg"], .bytes [1]), (["out", "lab", "h"], .bytes [2])],
          [["out"], ["out", "lab"]]⟩).1).1
      ≠ (copy_files (dfOfRecs [⟨1, "h.jpg", none, "lab", 0, none⟩,
          ⟨2, "h", none, "lab", 0, none⟩]) ["out", "lab"] ["out"]
        ⟨[(["out", "lab", "h.jpg"], .bytes [1]), (["out", "lab", "h"], .bytes [2])],
          [["out"], ["out", "lab"]]⟩).1 := by
  exact ⟨by decide, by decide, by decide⟩

/-- C5 core: when no source path coincides with any destination path and
the destinations are pairwise distinct, a second run of the record-level
copy loop from the final state of a successful first run performs exactly
the same writes with the same contents and finishes in that same state. -/
theorem copyRecs_idem (bin bout : FsPath) :
    ∀ (recs : List ExRec) (w w1 : World),
      (∀ i, i < recs.length → ∀ j, j < recs.length →
        srcPath bin (recs.getD i rec0) ≠ destPath bout (recs.getD j rec0)) →
      (∀ i, i < recs.length → ∀ j, j < recs.length → i ≠ j →
        destPath bout (recs.getD i rec0) ≠ destPath bout (recs.getD j rec0)) →
      copyRecs bin bout w recs = (w1, none) →
      copyRecs bin bout w1 recs = (w1, none) := by
  intro recs
  induction recs with
  | nil =>
    intro w w1 _ _ h
    simp only [copyRecs] at h ⊢
  | cons r rest ih =>
    intro w w1 hdisj hdd h1
    cases hc : w.lookupFile (srcPath bin r) with
    | none =>
      rw [show copyRecs bin bout w (r :: rest)
            = (w.mkdirP (bout ++ [r.label]), some PyErr.fileNotFound) by
          simp only [copyRecs, hc]] at h1
      have hcontra := congrArg Prod.snd h1
      simp at hcontra
    | some c =>
      have hstep : copyRecs bin bout w (r :: rest)
          = copyRecs bin bout
              ((w.mkdirP (bout ++ [r.label])).setFile (destPath bout r) c) rest := by
        simp only [copyRecs, hc]
      rw [hstep] at h1
      set wA := (w.mkdirP (bout ++ [r.label])).setFile (destPath bout r) c with hwA
      have hdisj2 : ∀ i, i < rest.length → ∀ j, j < rest.length →
          srcPath bin (rest.getD i rec0) ≠ destPath bout (rest.getD j rec0) := by
        intro i hi j hj
        have := hdisj (i + 1) (by simpa using Nat.succ_lt_succ hi)
          (j + 1) (by simpa using Nat.succ_lt_succ hj)
        simpa using this
      have hdd2 : ∀ i, i < rest.length → ∀ j, j < rest.length → i ≠ j →
          destPath bout (rest.getD i rec0) ≠ destPath bout (rest.getD j rec0) := by
        intro i hi j hj hij
        have := hdd (i + 1) (by simpa using Nat.succ_lt_succ hi)
          (j + 1) (by simpa using Nat.succ_lt_succ hj) (by omega)
        simpa using this
      -- the final state has the source of the head record untouched
      have hsrc : w1.lookupFile (srcPath bin r) = some c := by
        have hfr : w1.lookupFile (srcPath bin r) = wA.lookupFile (srcPath bin r) := by
          have := copyRecs_frame bin bout rest wA (srcPath bin r) ?_
          · rw [h1] at this; exact this
          · intro j hj
            have := hdisj 0 (by simp) (j + 1) (by simp; omega)
            simpa using this
        rw [hfr, hwA,
          lookupFile_setFile_ne _ _ _ _
            (by have := hdisj 0 (by simp) 0 (by simp); simpa using this),
          lookupFile_mkdirP]
        exact hc
      -- the final state already contains the head destination with content c
      have hdst : w1.lookupFile (destPath bout r) = some c := by
        have hfr : w1.lookupFile (destPath bout r) = wA.lookupFile (destPath bout r) := by
          have := copyRecs_frame bin bout rest wA (destPath bout r) ?_
          · rw [h1] at this; exact this
          · intro j hj
            have := hdd 0 (by simp) (j + 1) (by simp; omega) (by omega)
            simpa using this
        rw [hfr, hwA, lookupFile_setFile_self]
      -- the head directory already exists in the final state
      have hdir : (bout ++ [r.label]) ∈ w1.dirs := by
        have hA : (bout ++ [r.label]) ∈ wA.dirs := by
          rw [hwA, dirs_setFile]
          exact mkdirP_self_mem w _
        have := copyRecs_dirs_mono bin bout rest wA _ hA
        rw [h1] at this
        exact this
      have hstep2 : copyRecs bin bout w1 (r :: rest)
          = copyRecs bin bout w1 rest := by
        simp only [copyRecs, hsrc]
        rw [mkdirP_of_mem w1 _ hdir, setFile_of_lookup w1 _ _ hdst]
      rw [hstep2]
      exact ih wA w1 hdisj2 hdd2 h1

/-- C5 (amended): re-running the Exporter over the final state of a
successful run rewrites every `output_dir/label/content_hash.jpg` with the
identical content and yields the identical final state, provided no source
blob path coincides with a destination path (e.g. the blob directory is
not inside the output tree) and destination paths are pairwise distinct
(the practical uniqueness of `content_hash` the spec assumes). -/
theorem copy_files_idempotent_when_disjoint
    (recs : List ExRec) (bin bout : FsPath) (w w1 : World)
    (hdisj : ∀ i, i < recs.length → ∀ j, j < recs.length →
      srcPath bin (recs.getD i rec0) ≠ destPath bout (recs.getD j rec0))
    (hdd : ∀ i, i < recs.length → ∀ j, j < recs.length → i ≠ j →
      destPath bout (recs.getD i rec0) ≠ destPath bout (recs.getD j rec0))
    (h1 : copy_files (dfOfRecs recs) bin bout w = (w1, none)) :
    copy_files (dfOfRecs recs) bin bout w1 = (w1, none) := by
  rw [copy_files_recs] at h1 ⊢
  exact copyRecs_idem bin bout recs w w1 hdisj hdd h1

/-- Witness for C5 (amended): two records with distinct hashes, blob
directory disjoint from the output tree; the second run converges. -/
theorem copy_files_idempotent_when_disjoint_witness :
    (copy_files (dfOfRecs [⟨1, "a1", none, "cat", 1, none⟩,
        ⟨2, "b2", none, "dog", 2, none⟩]) ["blobs"] ["output"]
      ⟨[(["blobs", "a1"], .bytes [10]), (["blobs", "b2"], .bytes [20])],
        [["output"]]⟩
      = (⟨[(["blobs", "a1"], .bytes [10]), (["blobs", "b2"], .bytes [20]),
           (["output", "cat", "a1.jpg"], .bytes [10]),
           (["output", "dog", "b2.jpg"], .bytes [20])],
          [["output", "dog"], ["output", "cat"], ["output"]]⟩, none)) ∧
    copy_files (dfOfRecs [⟨1, "a1", none, "cat", 1, none⟩,
        ⟨2, "b2", none, "dog", 2, none⟩]) ["blobs"] ["output"]
      ⟨[(["blobs", "a1"], .bytes [10]), (["blobs", "b2"], .bytes [20]),
         (["output", "cat", "a1.jpg"], .bytes [10]),
         (["output", "dog", "b2.jpg"], .bytes [20])],
        [["output", "dog"], ["output", "cat"], ["output"]]⟩
      = (⟨[(["blobs", "a1"], .bytes [10]), (["blobs", "b2"], .bytes [20]),
           (["output", "cat", "a1.jpg"], .bytes [10]),
           (["output", "dog", "b2.jpg"], .bytes [20])],
          [["output", "dog"], ["output", "cat"], ["output"]]⟩, none) :=
  ⟨by decide,
   copy_files_idempotent_when_disjoint
     [⟨1, "a1", none, "cat", 1, none⟩, ⟨2, "b2", none, "dog", 2, none⟩]
     ["blobs"] ["output"]
     ⟨[(["blobs", "a1"], .bytes [10]), (["blobs", "b2"], .bytes [20])], [["output"]]⟩
     ⟨[(["blobs", "a1"], .bytes [10]), (["blobs", "b2"], .bytes [20]),
       (["output", "cat", "a1.jpg"], .bytes [10]),
       (["output", "dog", "b2.jpg"], .bytes [20])],
      [["output", "dog"], ["output", "cat"], ["output"]]⟩
     (by decide) (by decide) (by decide)⟩

/-! ## Metadata Reader lemmas -/

/-- C8 counterexample: `read_db` on a path that does not exist is not
side-effect free: opening the connection creates an empty database file at
the path (the `sqlite3.connect` behaviour), so the filesystem is changed
even though the read fails. -/
theorem read_db_creates_file_counterexample :
    (read_db ⟨[], []⟩ ["db.sqlite"]).1 ≠ (⟨[], []⟩ : World) := by decide

/-- C8 (amended): `read_db` fails on a nonexistent path or on an existing
file that is not a valid store, but not side-effect free and not at open
time: for a nonexistent path the connection first creates an empty
database file there and the query then raises no-such-table; only for an
existing invalid file is the filesystem left unchanged (query raises the
not-a-database error). -/
theorem read_db_failure_modes (w : World) (p : FsPath)
    (hnd : w.isDir p = false) :
    (w.lookupFile p = none →
      read_db w p = (w.setFile p .emptyStore, .error .operationalError)) ∧
    (∀ fd, w.lookupFile p = some fd → (∀ d, fd ≠ .store d) →
      ∃ e, read_db w p = (w, .error e)) := by
  constructor
  · intro h
    simp [read_db, hnd, h]
  · intro fd hfd hns
    cases fd with
    | store d => exact absurd rfl (hns d)
    | image px => exact ⟨.databaseError, by simp [read_db, hnd, hfd]⟩
    | bytes bs => exact ⟨.databaseError, by simp [read_db, hnd, hfd]⟩
    | emptyStore => exact ⟨.operationalError, by simp [read_db, hnd, hfd]⟩
    | csv hd cs => exact ⟨.databaseError, by simp [read_db, hnd, hfd]⟩

/-- Witness for C8 (amended): a world with one non-database file; the
nonexistent branch and the invalid-file branch both apply concretely. -/
theorem read_db_failure_modes_witness :
    (World.isDir ⟨[(["junk"], .bytes [1])], []⟩ ["junk"] = false) ∧
    ((World.lookupFile ⟨[(["junk"], .bytes [1])], []⟩ ["junk"] = none →
      read_db ⟨[(["junk"], .bytes [1])], []⟩ ["junk"]
        = ((World.setFile ⟨[(["junk"], .bytes [1])], []⟩ ["junk"] .emptyStore),
           .error .operationalError)) ∧
     (∀ fd, World.lookupFile ⟨[(["junk"], .bytes [1])], []⟩ ["junk"] = some fd →
       (∀ d, fd ≠ .store d) →
       ∃ e, read_db ⟨[(["junk"], .bytes [1])], []⟩ ["junk"] = (⟨[(["junk"], .bytes [1])], []⟩, .error e))) :=
  ⟨by decide, read_db_failure_modes ⟨[(["junk"], .bytes [1])], []⟩ ["junk"] (by decide)⟩

/-- Reduction of `read_db` on a valid store. -/
theorem read_db_store (w : World) (p : FsPath) (d : Database)
    (hnd : w.isDir p = false) (hdb : w.lookupFile p = some (.store d)) :
    read_db w p = (w, .ok (pdDataFrame ((read_db_rows d).map recToItem))) := by
  simp [read_db, hnd, hdb]

/-! ## Order of the Metadata Reader output -/

theorem mem_insertByDate (r y : ExRec) :
    ∀ (l : List ExRec), y ∈ insertByDate r l → y = r ∨ y ∈ l := by
  intro l
  induction l with
  | nil => intro h; simpa [insertByDate] using h
  | cons x xs ih =>
    intro h
    simp only [insertByDate] at h
    by_cases hc : r.date ≤ x.date
    · rw [if_pos hc] at h
      rcases List.mem_cons.mp h with h1 | h2
      · exact Or.inl h1
      · exact Or.inr h2
    · rw [if_neg hc] at h
      rcases List.mem_cons.mp h with h1 | h2
      · exact Or.inr (List.mem_cons.mpr (Or.inl h1))
      · rcases ih h2 with h3 | h4
        · exact Or.inl h3
        · exact Or.inr (List.mem_cons.mpr (Or.inr h4))

theorem pairwise_insertByDate (r : ExRec) :
    ∀ (l : List ExRec), l.Pairwise (fun a b => a.date ≤ b.date) →
      (insertByDate r l).Pairwise (fun a b => a.date ≤ b.date) := by
  intro l
  induction l with
  | nil => intro _; simp [insertByDate]
  | cons x xs ih =>
    intro h
    rcases List.pairwise_cons.mp h with ⟨hx, hxs⟩
    simp only [insertByDate]
    by_cases hc : r.date ≤ x.date
    · rw [if_pos hc]
      apply List.Pairwise.cons
      · intro y hy
        rcases List.mem_cons.mp hy with h1 | h2
        · rw [h1]; exact hc
        · exact le_trans hc (hx y h2)
      · exact h
    · rw [if_neg hc]
      apply List.Pairwise.cons
      · intro y hy
        rcases mem_insertByDate r y xs hy with h1 | h2
        · rw [h1]; omega
        · exact hx y h2
      · exact ih hxs

/-- The Metadata Reader output is ascending in the modification date. -/
theorem sortByDate_pairwise :
    ∀ (l : List ExRec), (sortByDate l).Pairwise (fun a b => a.date ≤ b.date) := by
  intro l
  induction l with
  | nil => exact List.Pairwise.nil
  | cons x xs ih => exact pairwise_insertByDate x (sortByDate xs) ih

/-! ## Orchestrator theorems -/

/-- C10: a metadata source whose join yields zero records crashes the run
when the hash column of the empty table is read: `pd.DataFrame([])` has no
columns, so `df["hash"]` raises `KeyError` (source line 133) before the
output check, the copy loop and the manifest write; the filesystem is
left unchanged - no manifest and no copied files. -/
theorem empty_db_crashes_on_hash_column (ph : List Nat → String) (cpu : Nat)
    (order : List Nat) (lobeBase : FsPath) (args : Args) (w : World)
    (d : Database)
    (hdb : w.lookupFile (mkDbPath lobeBase args.lobe_project) = some (.store d))
    (hnd : w.isDir (mkDbPath lobeBase args.lobe_project) = false)
    (hempty : read_db_rows d = []) :
    mainRun ph cpu order lobeBase args none w
      = (w, .crashed (.keyError "hash")) := by
  unfold mainRun
  dsimp only
  rw [read_db_store w _ d hnd hdb, hempty]
  simp [dfGetCol, pdDataFrame]

/-- Witness for C10: an entirely empty database. -/
theorem empty_db_crashes_on_hash_column_witness :
    (World.lookupFile ⟨[(["base", "p", "db.sqlite"], .store ⟨[], [], [], []⟩)], [["outd"]]⟩
        (mkDbPath ["base"] (Args.lobe_project ⟨"p", none, false, some ["outd"]⟩))
      = some (.store ⟨[], [], [], []⟩) ∧
     World.isDir ⟨[(["base", "p", "db.sqlite"], .store ⟨[], [], [], []⟩)], [["outd"]]⟩
        (mkDbPath ["base"] (Args.lobe_project ⟨"p", none, false, some ["outd"]⟩)) = false ∧
     read_db_rows ⟨[], [], [], []⟩ = []) ∧
    mainRun (fun px => toString px.length) 1 [] ["base"]
        ⟨"p", none, false, some ["outd"]⟩ none
        ⟨[(["base", "p", "db.sqlite"], .store ⟨[], [], [], []⟩)], [["outd"]]⟩
      = (⟨[(["base", "p", "db.sqlite"], .store ⟨[], [], [], []⟩)], [["outd"]]⟩,
         .crashed (.keyError "hash")) :=
  ⟨⟨by decide, by decide, by decide⟩,
   empty_db_crashes_on_hash_column (fun px => toString px.length) 1 [] ["base"]
     ⟨"p", none, false, some ["outd"]⟩
     ⟨[(["base", "p", "db.sqlite"], .store ⟨[], [], [], []⟩)], [["outd"]]⟩
     ⟨[], [], [], []⟩ (by decide) (by decide) (by decide)⟩

/-- C6 counterexample: the validation of the output location does NOT
happen before the metadata read.  Concrete world: the output argument
points to an existing regular file `f.txt` (so per the claim the run
should be rejected with the invalid-output diagnostic before any work),
but the project database file is invalid - and the run crashes reading it,
because `read_db` (line 132) runs before the output check (line 140). -/
theorem output_check_after_read_counterexample :
    (World.lookupFile ⟨[(["base", "p", "db.sqlite"], .bytes []), (["f.txt"], .bytes [7])], []⟩
        ["f.txt"] = some (.bytes [7]) ∧
     World.isDir ⟨[(["base", "p", "db.sqlite"], .bytes []), (["f.txt"], .bytes [7])], []⟩
        ["f.txt"] = false) ∧
    (mainRun (fun px => toString px.length) 1 [] ["base"]
        ⟨"p", none, false, some ["f.txt"]⟩ none
        ⟨[(["base", "p", "db.sqlite"], .bytes []), (["f.txt"], .bytes [7])], []⟩).2
      = .crashed .databaseError ∧
    (mainRun (fun px => toString px.length) 1 [] ["base"]
        ⟨"p", none, false, some ["f.txt"]⟩ none
        ⟨[(["base", "p", "db.sqlite"], .bytes []), (["f.txt"], .bytes [7])], []⟩).2
      ≠ .exitNonZero := by
  exact ⟨⟨by decide, by decide⟩, by decide, by decide⟩

/-- C6 (amended): when the output path exists but is not a directory the
run prints the diagnostic, exits nonzero and writes nothing - the world
is returned unchanged - but the validation happens only after the
metadata read and the hash-column extraction have completed, not before
any work begins. -/
theorem invalid_output_rejected_after_read (ph : List Nat → String) (cpu : Nat)
    (order : List Nat) (lobeBase : FsPath) (args : Args) (w : World)
    (d : Database) (p : FsPath)
    (hout : args.output_dir = some p)
    (hpd : w.isDir p = false)
    (hdb : w.lookupFile (mkDbPath lobeBase args.lobe_project) = some (.store d))
    (hnd : w.isDir (mkDbPath lobeBase args.lobe_project) = false)
    (hne : read_db_rows d ≠ []) :
    mainRun ph cpu order lobeBase args none w = (w, .exitNonZero) := by
  unfold mainRun
  dsimp only
  rw [read_db_store w _ d hnd hdb]
  obtain ⟨r0, rest, hrr⟩ := List.exists_cons_of_ne_nil hne
  rw [hrr]
  dsimp only
  have hget : dfGetCol (pdDataFrame ((r0 :: rest).map recToItem)) "hash"
      = .ok (((r0 :: rest).map recToItem).map
          (fun r => ((r.lookup "hash").getD .null))) := by
    rfl
  rw [List.map_cons] at hget ⊢
  rw [hget]
  dsimp only
  rw [hout]
  simp [hpd]

/-- Witness for C6 (amended): valid one-record database, output argument
being an existing regular file. -/
theorem invalid_output_rejected_after_read_witness :
    ((⟨"p", none, false, some ["f.txt"]⟩ : Args).output_dir = some ["f.txt"] ∧
     World.isDir ⟨[(["base", "p", "db.sqlite"],
         .store ⟨[⟨1, "a1", some "c.jpg"⟩], [⟨1, "cat", 10⟩], [⟨1, some 95⟩], [1]⟩),
        (["f.txt"], .bytes [7])], []⟩ ["f.txt"] = false ∧
     read_db_rows ⟨[⟨1, "a1", some "c.jpg"⟩], [⟨1, "cat", 10⟩], [⟨1, some 95⟩], [1]⟩ ≠ []) ∧
    mainRun (fun px => toString px.length) 1 [] ["base"]
        ⟨"p", none, false, some ["f.txt"]⟩ none
        ⟨[(["base", "p", "db.sqlite"],
           .store ⟨[⟨1, "a1", some "c.jpg"⟩], [⟨1, "cat", 10⟩], [⟨1, some 95⟩], [1]⟩),
          (["f.txt"], .bytes [7])], []⟩
      = (⟨[(["base", "p", "db.sqlite"],
            .store ⟨[⟨1, "a1", some "c.jpg"⟩], [⟨1, "cat", 10⟩], [⟨1, some 95⟩], [1]⟩),
           (["f.txt"], .bytes [7])], []⟩, .exitNonZero) :=
  ⟨⟨by decide, by decide, by decide⟩,
   invalid_output_rejected_after_read (fun px => toString px.length) 1 [] ["base"]
     ⟨"p", none, false, some ["f.txt"]⟩
     ⟨[(["base", "p", "db.sqlite"],
        .store ⟨[⟨1, "a1", some "c.jpg"⟩], [⟨1, "cat", 10⟩], [⟨1, some 95⟩], [1]⟩),
       (["f.txt"], .bytes [7])], []⟩
     ⟨[⟨1, "a1", some "c.jpg"⟩], [⟨1, "cat", 10⟩], [⟨1, some 95⟩], [1]⟩
     ["f.txt"] (by decide) (by decide) (by decide) (by decide) (by decide)⟩

/-! ## Error classification and frame lemmas for the interrupt analysis -/

theorem seriesGet_error (row : List (String × Value)) (k : String) (e : PyErr)
    (h : seriesGet row k = .error e) : e = .keyError k := by
  unfold seriesGet at h
  split at h
  · cases h
  · injection h with h2; exact h2.symm

theorem asPathSeg_error (v : Value) (e : PyErr)
    (h : asPathSeg v = .error e) : e = .typeError := by
  cases v with
  | str s => cases h
  | int n => injection h with h2; exact h2.symm
  | null => injection h with h2; exact h2.symm

theorem read_db_snd_error (w : World) (p : FsPath) (e : PyErr)
    (h : (read_db w p).2 = .error e) :
    e = .operationalError ∨ e = .databaseError := by
  unfold read_db at h
  split at h
  · injection h with h2; exact Or.inl h2.symm
  · split at h
    · cases h
    · injection h with h2; exact Or.inl h2.symm
    · injection h with h2; exact Or.inr h2.symm
    · injection h with h2; exact Or.inl h2.symm

theorem dfGetCol_error (df : DataFrame) (c : String) (e : PyErr)
    (h : dfGetCol df c = .error e) : e = .keyError c := by
  unfold dfGetCol at h
  split at h
  · cases h
  · injection h with h2; exact h2.symm

theorem dfSetCol_error (df : DataFrame) (c : String) (vs : List Value)
    (e : PyErr) (h : dfSetCol df c vs = .error e) : e = .valueError := by
  unfold dfSetCol at h
  split at h
  · cases h
  · injection h with h2; exact h2.symm

theorem copyOne_snd_error (bin bout : FsPath) (w : World)
    (row : List (String × Value)) (e : PyErr)
    (h : (copyOne bin bout w row).2 = some e) : e ≠ .keyboardInterrupt := by
  unfold copyOne at h
  split at h
  · next e2 heq =>
    injection h with h2
    rw [← h2, seriesGet_error row "hash" e2 heq]
    intro hc; cases hc
  · split at h
    · next e2 heq =>
      injection h with h2
      rw [← h2, seriesGet_error row "label" e2 heq]
      intro hc; cases hc
    · split at h
      · next e2 heq =>
        injection h with h2
        rw [← h2, asPathSeg_error _ e2 heq]
        intro hc; cases hc
      · split at h
        · next e2 heq =>
          injection h with h2
          rw [← h2, asPathSeg_error _ e2 heq]
          intro hc; cases hc
        · dsimp only at h
          split at h
          · injection h with h2
            rw [← h2]
            intro hc; cases hc
          · cases h

theorem copyRows_snd_error (bin bout : FsPath) :
    ∀ (rows : List (List (String × Value))) (w : World) (e : PyErr),
      (copyRows bin bout w rows).2 = some e → e ≠ .keyboardInterrupt := by
  intro rows
  induction rows with
  | nil => intro w e h; cases h
  | cons row rest ih =>
    intro w e h
    simp only [copyRows] at h
    cases hco : copyOne bin bout w row with
    | mk w1 e1 =>
      rw [hco] at h
      cases e1 with
      | none => exact ih w1 e h
      | some err =>
        simp only [] at h
        injection h with h2
        rw [← h2]
        exact copyOne_snd_error bin bout w row err (by rw [hco])

/-- Every file the copy loop writes sits two components below the output
directory; everything else is untouched, whether or not the loop errors. -/
theorem copyOne_shape (bin bout : FsPath) (w : World)
    (row : List (String × Value)) :
    ((copyOne bin bout w row).1).files = w.files ∨
    ∃ sub fn c, (copyOne bin bout w row).1
        = (w.mkdirP (bout ++ [sub])).setFile (bout ++ [sub, fn ++ ".jpg"]) c := by
  unfold copyOne
  split
  · exact Or.inl rfl
  · split
    · exact Or.inl rfl
    · split
      · exact Or.inl rfl
      · split
        · exact Or.inl rfl
        · dsimp only
          split
          · exact Or.inl (files_mkdirP w _)
          · next c hc => exact Or.inr ⟨_, _, c, rfl⟩

theorem copyOne_frame_len (bin bout : FsPath) (w : World)
    (row : List (String × Value)) (p : FsPath)
    (hp : p.length ≠ bout.length + 2) :
    ((copyOne bin bout w row).1).lookupFile p = w.lookupFile p := by
  rcases copyOne_shape bin bout w row with h | ⟨sub, fn, c, h⟩
  · unfold World.lookupFile
    rw [h]
  · rw [h]
    rw [lookupFile_setFile_ne _ _ _ _ ?_, lookupFile_mkdirP]
    intro he
    apply hp
    rw [he, List.length_append]
    rfl

theorem copyRows_frame_len (bin bout : FsPath) :
    ∀ (rows : List (List (String × Value))) (w : World) (p : FsPath),
      p.length ≠ bout.length + 2 →
      ((copyRows bin bout w rows).1).lookupFile p = w.lookupFile p := by
  intro rows
  induction rows with
  | nil => intro w p _; rfl
  | cons row rest ih =>
    intro w p hp
    simp only [copyRows]
    cases hco : copyOne bin bout w row with
    | mk w1 e =>
      have hone := copyOne_frame_len bin bout w row p hp
      rw [hco] at hone
      cases e with
      | none =>
        simp only []
        rw [ih w1 p hp]
        exact hone
      | some err =>
        simpa using hone

/-- An interrupt at the copy or manifest stage: the stage pair never ends
in success, leaves every path off the copy destinations (in particular the
manifest path) unchanged, and never surfaces the interrupt as a crash. -/
theorem stageCopy_interrupted (project : String) (bp outp : FsPath)
    (s : Stage) (w : World) (df : DataFrame) (p : FsPath)
    (hs : s = .sCopy ∨ s = .sWriteCsv)
    (hp : p.length ≠ outp.length + 2) :
    (stageCopy project bp outp (some s) w df).2 ≠ .success ∧
    ((stageCopy project bp outp (some s) w df).1).lookupFile p
      = w.lookupFile p ∧
    (stageCopy project bp outp (some s) w df).2
      ≠ .crashed .keyboardInterrupt := by
  rcases hs with hs | hs
  · subst hs
    refine ⟨?_, ?_, ?_⟩ <;> simp [stageCopy]
  · subst hs
    unfold stageCopy
    rw [if_neg (by simp)]
    cases hcp : copy_files df bp outp w with
    | mk w1 e =>
      have hframe : w1.lookupFile p = w.lookupFile p := by
        have := copyRows_frame_len bp outp df.rows w p hp
        unfold copy_files at hcp
        rw [hcp] at this
        exact this
      cases e with
      | some err =>
        refine ⟨by simp, by simpa using hframe, ?_⟩
        simp only []
        intro hcontra
        have he : err = PyErr.keyboardInterrupt := by
          injection hcontra
        exact copyRows_snd_error bp outp df.rows w err
          (by unfold copy_files at hcp; rw [hcp]) he
      | none =>
        have hcsv : stageCsv project outp (some Stage.sWriteCsv) w1 df
            = (w1, .cleanExit) := by
          simp [stageCsv]
        refine ⟨?_, ?_, ?_⟩ <;> simp [hcsv, hframe]

/-- An interrupt at the fingerprint, copy or manifest stage, seen from the
top of the `try` block. -/
theorem stagePhash_interrupted (ph : List Nat → String) (cpu : Nat)
    (order : List Nat) (args : Args) (bp outp : FsPath) (s : Stage)
    (w : World) (df : DataFrame) (names : List String) (p : FsPath)
    (hs : s = .sPhash ∨ s = .sCopy ∨ s = .sWriteCsv)
    (hp : p.length ≠ outp.length + 2) :
    (stagePhash ph cpu order args bp outp (some s) w df names).2 ≠ .success ∧
    ((stagePhash ph cpu order args bp outp (some s) w df names).1).lookupFile p
      = w.lookupFile p ∧
    (stagePhash ph cpu order args bp outp (some s) w df names).2
      ≠ .crashed .keyboardInterrupt := by
  rcases hs with hs | hs2
  · subst hs
    refine ⟨?_, ?_, ?_⟩ <;> simp [stagePhash]
  · unfold stagePhash
    rw [if_neg (by rcases hs2 with h | h <;> subst h <;> simp)]
    refine ⟨?_, ?_, ?_⟩
    · split
      · next e heq =>
        cases hph : args.phash with
        | false => rw [if_neg (by simp [hph])] at heq; cases heq
        | true => simp
      · next df1 heq =>
        exact (stageCopy_interrupted args.lobe_project bp outp s w df1 p hs2 hp).1
    · split
      · next e heq => rfl
      · next df1 heq =>
        exact (stageCopy_interrupted args.lobe_project bp outp s w df1 p hs2 hp).2.1
    · split
      · next e heq =>
        cases hph : args.phash with
        | false => rw [if_neg (by simp [hph])] at heq; cases heq
        | true =>
          rw [if_pos (by simp [hph])] at heq
          have := dfSetCol_error _ _ _ _ heq
          simp only []
          intro hcontra
          have he : e = PyErr.keyboardInterrupt := by injection hcontra
          rw [this] at he
          cases he
      · next df1 heq =>
        exact (stageCopy_interrupted args.lobe_project bp outp s w df1 p hs2 hp).2.2

/-- C7 (amended): a run interrupted at any stage never ends in success and
never writes the manifest (the manifest path is left exactly as it was);
an interrupt arriving inside the `try` block (fingerprint, copy, or
manifest-write stage) is caught by the handler and never surfaces as an
uncaught-exception traceback - whereas an interrupt during the metadata
read, the hash-column extraction, or the output validation is an uncaught
exception (see the counterexample).  The hypothesis says the project
database file exists, so the read itself creates nothing. -/
theorem interrupted_run_no_manifest (ph : List Nat → String) (cpu : Nat)
    (order : List Nat) (lobeBase : FsPath) (args : Args) (w : World)
    (s : Stage)
    (hdb : (read_db w (mkDbPath lobeBase args.lobe_project)).1 = w) :
    (mainRun ph cpu order lobeBase args (some s) w).2 ≠ .success ∧
    ((mainRun ph cpu order lobeBase args (some s) w).1).lookupFile
        (manifestPath (args.output_dir.getD []) args.lobe_project)
      = w.lookupFile (manifestPath (args.output_dir.getD []) args.lobe_project) ∧
    ((s = .sPhash ∨ s = .sCopy ∨ s = .sWriteCsv) →
      (mainRun ph cpu order lobeBase args (some s) w).2
        ≠ .crashed .keyboardInterrupt) := by
  unfold mainRun
  dsimp only
  by_cases h1 : s = Stage.sReadDb
  · subst h1
    refine ⟨by simp, by simp, by rintro (h | h | h) <;> cases h⟩
  rw [if_neg (by simpa using h1)]
  cases hre : read_db w (mkDbPath lobeBase args.lobe_project) with
  | mk w1 res =>
    rw [hre] at hdb
    dsimp only at hdb
    subst hdb
    cases res with
    | error e =>
      refine ⟨by simp, by simp, fun _ hcontra => ?_⟩
      have he : e = PyErr.keyboardInterrupt := by
        dsimp only at hcontra
        injection hcontra
      rcases read_db_snd_error w1 _ e (by rw [hre]) with h | h <;>
        rw [h] at he <;> cases he
    | ok df =>
      dsimp only
      by_cases h2 : s = Stage.sGetNames
      · subst h2
        refine ⟨by simp, by simp, by rintro (h | h | h) <;> cases h⟩
      rw [if_neg (by simpa using h2)]
      cases hgc : dfGetCol df "hash" with
      | error e =>
        have he2 := dfGetCol_error df "hash" e hgc
        refine ⟨by simp, by simp, fun _ hcontra => ?_⟩
        have he : e = PyErr.keyboardInterrupt := by
          dsimp only at hcontra
          injection hcontra
        rw [he2] at he
        cases he
      | ok nameVals =>
        dsimp only
        by_cases h3 : s = Stage.sCheckOutput
        · subst h3
          refine ⟨by simp, by simp, by rintro (h | h | h) <;> cases h⟩
        rw [if_neg (by simpa using h3)]
        cases hdir : w1.isDir (args.output_dir.getD []) with
        | false =>
          rw [if_neg (by simp [hdir])]
          refine ⟨by simp, by simp, fun _ hcontra => by simp at hcontra⟩
        | true =>
          rw [if_pos rfl]
          by_cases h4 : s = Stage.sMkOutput
          · subst h4
            refine ⟨by simp, by simp, by rintro (h | h | h) <;> cases h⟩
          rw [if_neg (by simpa using h4)]
          have hs5 : s = .sPhash ∨ s = .sCopy ∨ s = .sWriteCsv := by
            cases s <;> simp_all
          have hp : (manifestPath (args.output_dir.getD [])
                args.lobe_project).length
              ≠ (args.output_dir.getD []).length + 2 := by
            simp [manifestPath]
          obtain ⟨ha, hb, hc⟩ := stagePhash_interrupted ph cpu order args
            (mkBlobPath lobeBase args.lobe_project) (args.output_dir.getD [])
            s (w1.mkdirP (args.output_dir.getD [])) df
            (nameVals.map strOfValue)
            (manifestPath (args.output_dir.getD []) args.lobe_project) hs5 hp
          refine ⟨ha, ?_, fun _ => hc⟩
          rw [hb, lookupFile_mkdirP]

/-- C7 counterexample: an interrupt during the metadata read stage is NOT
caught (the `try` of lines 145-156 protects only the later stages): the
process dies with an uncaught `KeyboardInterrupt` traceback instead of
exiting cleanly. -/
theorem interrupt_during_read_crashes_counterexample :
    (mainRun (fun px => toString px.length) 1 [] ["base"]
        ⟨"p", none, false, some ["outd"]⟩ (some .sReadDb)
        ⟨[(["base", "p", "db.sqlite"], .store ⟨[], [], [], []⟩)], [["outd"]]⟩).2
      = .crashed .keyboardInterrupt ∧
    (mainRun (fun px => toString px.length) 1 [] ["base"]
        ⟨"p", none, false, some ["outd"]⟩ (some .sReadDb)
        ⟨[(["base", "p", "db.sqlite"], .store ⟨[], [], [], []⟩)], [["outd"]]⟩).2
      ≠ .cleanExit := by
  exact ⟨by decide, by decide⟩

/-- Witness for C7 (amended): an interrupt at the copy stage of a run over
a valid one-record project. -/
theorem interrupted_run_no_manifest_witness :
    ((read_db ⟨[(["base", "p", "db.sqlite"],
         .store ⟨[⟨1, "a1", some "c.jpg"⟩], [⟨1, "cat", 10⟩], [⟨1, some 95⟩], [1]⟩),
        (["base", "p", "data", "blobs", "a1"], .image [3, 4])], [["outd"]]⟩
        (mkDbPath ["base"] (Args.lobe_project ⟨"p", none, false, some ["outd"]⟩))).1
      = ⟨[(["base", "p", "db.sqlite"],
           .store ⟨[⟨1, "a1", some "c.jpg"⟩], [⟨1, "cat", 10⟩], [⟨1, some 95⟩], [1]⟩),
          (["base", "p", "data", "blobs", "a1"], .image [3, 4])], [["outd"]]⟩) ∧
    ((mainRun (fun px => toString px.length) 1 [] ["base"]
        ⟨"p", none, false, some ["outd"]⟩ (some .sCopy)
        ⟨[(["base", "p", "db.sqlite"],
           .store ⟨[⟨1, "a1", some "c.jpg"⟩], [⟨1, "cat", 10⟩], [⟨1, some 95⟩], [1]⟩),
          (["base", "p", "data", "blobs", "a1"], .image [3, 4])], [["outd"]]⟩).2
        ≠ .success ∧
     ((mainRun (fun px => toString px.length) 1 [] ["base"]
        ⟨"p", none, false, some ["outd"]⟩ (some .sCopy)
        ⟨[(["base", "p", "db.sqlite"],
           .store ⟨[⟨1, "a1", some "c.jpg"⟩], [⟨1, "cat", 10⟩], [⟨1, some 95⟩], [1]⟩),
          (["base", "p", "data", "blobs", "a1"], .image [3, 4])], [["outd"]]⟩).1).lookupFile
        (manifestPath ((Args.output_dir ⟨"p", none, false, some ["outd"]⟩).getD [])
          (Args.lobe_project ⟨"p", none, false, some ["outd"]⟩))
      = World.lookupFile ⟨[(["base", "p", "db.sqlite"],
           .store ⟨[⟨1, "a1", some "c.jpg"⟩], [⟨1, "cat", 10⟩], [⟨1, some 95⟩], [1]⟩),
          (["base", "p", "data", "blobs", "a1"], .image [3, 4])], [["outd"]]⟩
        (manifestPath ((Args.output_dir ⟨"p", none, false, some ["outd"]⟩).getD [])
          (Args.lobe_project ⟨"p", none, false, some ["outd"]⟩)) ∧
     ((Stage.sCopy = Stage.sPhash ∨ Stage.sCopy = Stage.sCopy ∨
        Stage.sCopy = Stage.sWriteCsv) →
      (mainRun (fun px => toString px.length) 1 [] ["base"]
        ⟨"p", none, false, some ["outd"]⟩ (some .sCopy)
        ⟨[(["base", "p", "db.sqlite"],
           .store ⟨[⟨1, "a1", some "c.jpg"⟩], [⟨1, "cat", 10⟩], [⟨1, some 95⟩], [1]⟩),
          (["base", "p", "data", "blobs", "a1"], .image [3, 4])], [["outd"]]⟩).2
        ≠ .crashed .keyboardInterrupt)) :=
  ⟨by decide,
   interrupted_run_no_manifest (fun px => toString px.length) 1 [] ["base"]
     ⟨"p", none, false, some ["outd"]⟩
     ⟨[(["base", "p", "db.sqlite"],
        .store ⟨[⟨1, "a1", some "c.jpg"⟩], [⟨1, "cat", 10⟩], [⟨1, some 95⟩], [1]⟩),
       (["base", "p", "data", "blobs", "a1"], .image [3, 4])], [["outd"]]⟩
     Stage.sCopy (by decide)⟩

/-! ## Manifest content lemmas -/

/-- Serializing a record row yields exactly its six data cells. -/
theorem map_cells_take :
    ∀ (recs : List ExRec),
      ((recs.map recToItem).map
        (fun r => (["example_id", "hash", "filename", "label", "date",
            "accuracy"]).map (fun c => cellOf r c))).map (fun cs => cs.take 6)
      = recs.map recToCells := by
  intro recs
  induction recs with
  | nil => rfl
  | cons r rest ih =>
    simp only [List.map_cons]
    congr 1

/-- Serializing a record row with an attached phash cell: the first six
cells are still exactly the record data. -/
theorem zip_phash_cells_take :
    ∀ (recs : List ExRec) (vs : List Value), vs.length = recs.length →
      (((recs.map recToItem).zip vs).map
        (fun rv => (["example_id", "hash", "filename", "label", "date",
            "accuracy", "phash"]).map
          (fun c => cellOf (rv.1 ++ [("phash", rv.2)]) c))).map
        (fun cs => cs.take 6)
      = recs.map recToCells := by
  intro recs
  induction recs with
  | nil => intro vs h; rfl
  | cons r rest ih =>
    intro vs h
    cases vs with
    | nil => simp at h
    | cons v vrest =>
      simp only [List.map_cons, List.zip_cons_cons]
      congr 1
      exact ih vrest (by simpa using h)

/-- A successful pass through the `try` block: extract the copied world,
the (possibly phash-extended) frame, and the final manifest write. -/
theorem stagePhash_success (ph : List Nat → String) (cpu : Nat)
    (order : List Nat) (args : Args) (bp outp : FsPath) (w : World)
    (df : DataFrame) (names : List String)
    (hsucc : (stagePhash ph cpu order args bp outp none w df names).2
      = .success) :
    ∃ df1 w1,
      copy_files df1 bp outp w = (w1, none) ∧
      (args.phash = true → ∃ vs, dfSetCol df "phash" vs = .ok df1) ∧
      (args.phash = false → df1 = df) ∧
      stagePhash ph cpu order args bp outp none w df names
        = (w1.setFile (manifestPath outp args.lobe_project) (dfToCsv df1),
           .success) := by
  unfold stagePhash at hsucc ⊢
  rw [if_neg (by simp)] at hsucc ⊢
  split at hsucc
  · next e heq =>
    dsimp only at hsucc
    cases hsucc
  · next df1 heq =>
    unfold stageCopy at hsucc ⊢
    rw [if_neg (by simp)] at hsucc ⊢
    split at hsucc
    · next w1 e heq2 =>
      dsimp only at hsucc
      cases hsucc
    · next w1 heq2 =>
      unfold stageCsv at hsucc ⊢
      rw [if_neg (by simp)] at hsucc ⊢
      refine ⟨df1, w1, heq2, ?_, ?_, rfl⟩
      · intro hph
        rw [if_pos hph] at heq
        dsimp only at heq
        exact ⟨_, heq⟩
      · intro hph
        rw [if_neg (by simp [hph])] at heq
        injection heq with h2
        exact h2.symm

/-- C2: whenever a run completes successfully, the manifest it wrote has
one row per record of the Metadata Reader output, in that exact order
(each row projecting on the six data columns to the corresponding record),
with the header naming the data columns - and the Metadata Reader output
itself is ascending in the label-modification timestamp.  No stage between
the read and the manifest write filters or reorders rows. -/
theorem manifest_rows_match_reader (ph : List Nat → String) (cpu : Nat)
    (order : List Nat) (lobeBase : FsPath) (args : Args) (w : World)
    (d : Database)
    (hdb : w.lookupFile (mkDbPath lobeBase args.lobe_project)
      = some (.store d))
    (hnd : w.isDir (mkDbPath lobeBase args.lobe_project) = false)
    (hsucc : (mainRun ph cpu order lobeBase args none w).2 = .success) :
    ∃ hdr cells,
      ((mainRun ph cpu order lobeBase args none w).1).lookupFile
          (manifestPath (args.output_dir.getD []) args.lobe_project)
        = some (.csv hdr cells) ∧
      hdr.take 6 = ["example_id", "hash", "filename", "label", "date",
        "accuracy"] ∧
      cells.map (fun cs => cs.take 6) = (read_db_rows d).map recToCells ∧
      List.Pairwise (fun a b => a.date ≤ b.date) (read_db_rows d) := by
  have hpair : List.Pairwise (fun a b => a.date ≤ b.date) (read_db_rows d) :=
    sortByDate_pairwise (joinRows d)
  unfold mainRun at hsucc ⊢
  dsimp only at hsucc ⊢
  rw [if_neg (by simp)] at hsucc ⊢
  rw [read_db_store w _ d hnd hdb] at hsucc ⊢
  cases hrr : read_db_rows d with
  | nil =>
    rw [hrr] at hsucc
    simp [dfGetCol, pdDataFrame] at hsucc
  | cons r0 rest =>
    rw [hrr] at hsucc hpair
    dsimp only at hsucc ⊢
    rw [if_neg (by simp)] at hsucc ⊢
    have hget : dfGetCol (pdDataFrame ((r0 :: rest).map recToItem)) "hash"
        = .ok (((r0 :: rest).map recToItem).map
            (fun r => ((r.lookup "hash").getD .null))) := rfl
    rw [List.map_cons] at hget hsucc ⊢
    rw [hget] at hsucc ⊢
    dsimp only at hsucc ⊢
    rw [if_neg (by simp)] at hsucc ⊢
    by_cases hdir : w.isDir (args.output_dir.getD []) = true
    · rw [if_pos hdir] at hsucc ⊢
      rw [if_neg (by simp)] at hsucc ⊢
      obtain ⟨df1, w1, hcopy, hphT, hphF, heqn⟩ :=
        stagePhash_success _ _ _ _ _ _ _ _ _ hsucc
      rw [heqn]
      dsimp only
      rw [lookupFile_setFile_self]
      cases hph : args.phash with
      | false =>
        have hdf1 : df1 = pdDataFrame (recToItem r0 :: rest.map recToItem) :=
          hphF hph
        refine ⟨["example_id", "hash", "filename", "label", "date",
          "accuracy"], ((r0 :: rest).map recToItem).map
            (fun r => (["example_id", "hash", "filename", "label", "date",
              "accuracy"]).map (fun c => cellOf r c)), ?_, by rfl, ?_, hpair⟩
        · rw [hdf1]
          rfl
        · exact map_cells_take (r0 :: rest)
      | true =>
        obtain ⟨vs, hset⟩ := hphT hph
        unfold dfSetCol at hset
        split at hset
        · next hlen =>
          injection hset with h2
          have hlen2 : vs.length = (r0 :: rest).length := by
            have hr : (pdDataFrame (recToItem r0 :: rest.map recToItem)).rows
                = recToItem r0 :: rest.map recToItem := rfl
            rw [hr] at hlen
            simpa using hlen
          refine ⟨["example_id", "hash", "filename", "label", "date",
            "accuracy", "phash"],
            ((((r0 :: rest).map recToItem).zip vs).map
              (fun rv => (["example_id", "hash", "filename", "label",
                "date", "accuracy", "phash"]).map
                (fun c => cellOf (rv.1 ++ [("phash", rv.2)]) c))), ?_, by rfl,
            ?_, hpair⟩
          · rw [← h2]
            unfold dfToCsv
            dsimp only
            rw [List.map_map]
            rfl
          · exact zip_phash_cells_take (r0 :: rest) vs hlen2
        · cases hset
    · rw [if_neg hdir] at hsucc
      dsimp only at hsucc
      cases hsucc

/-- Witness for C2: a one-record project exported successfully (fingerprint
toggle off); the manifest row projects to the record. -/
theorem manifest_rows_match_reader_witness :
    (World.lookupFile ⟨[(["base", "p", "db.sqlite"],
         .store ⟨[⟨1, "a1", some "c.jpg"⟩], [⟨1, "cat", 10⟩], [⟨1, some 95⟩], [1]⟩),
        (["base", "p", "data", "blobs", "a1"], .image [3, 4])], [["outd"]]⟩
        (mkDbPath ["base"] (Args.lobe_project ⟨"p", none, false, some ["outd"]⟩))
      = some (.store ⟨[⟨1, "a1", some "c.jpg"⟩], [⟨1, "cat", 10⟩], [⟨1, some 95⟩], [1]⟩) ∧
     World.isDir ⟨[(["base", "p", "db.sqlite"],
         .store ⟨[⟨1, "a1", some "c.jpg"⟩], [⟨1, "cat", 10⟩], [⟨1, some 95⟩], [1]⟩),
        (["base", "p", "data", "blobs", "a1"], .image [3, 4])], [["outd"]]⟩
        (mkDbPath ["base"] (Args.lobe_project ⟨"p", none, false, some ["outd"]⟩))
      = false ∧
     (mainRun (fun px => toString px.length) 1 [] ["base"]
        ⟨"p", none, false, some ["outd"]⟩ none
        ⟨[(["base", "p", "db.sqlite"],
           .store ⟨[⟨1, "a1", some "c.jpg"⟩], [⟨1, "cat", 10⟩], [⟨1, some 95⟩], [1]⟩),
          (["base", "p", "data", "blobs", "a1"], .image [3, 4])], [["outd"]]⟩).2
      = .success) ∧
    (∃ hdr cells,
      ((mainRun (fun px => toString px.length) 1 [] ["base"]
          ⟨"p", none, false, some ["outd"]⟩ none
          ⟨[(["base", "p", "db.sqlite"],
             .store ⟨[⟨1, "a1", some "c.jpg"⟩], [⟨1, "cat", 10⟩], [⟨1, some 95⟩], [1]⟩),
            (["base", "p", "data", "blobs", "a1"], .image [3, 4])], [["outd"]]⟩).1).lookupFile
          (manifestPath ((Args.output_dir ⟨"p", none, false, some ["outd"]⟩).getD [])
            (Args.lobe_project ⟨"p", none, false, some ["outd"]⟩))
        = some (.csv hdr cells) ∧
      hdr.take 6 = ["example_id", "hash", "filename", "label", "date",
        "accuracy"] ∧
      cells.map (fun cs => cs.take 6)
        = (read_db_rows ⟨[⟨1, "a1", some "c.jpg"⟩], [⟨1, "cat", 10⟩],
            [⟨1, some 95⟩], [1]⟩).map recToCells ∧
      List.Pairwise (fun a b => a.date ≤ b.date)
        (read_db_rows ⟨[⟨1, "a1", some "c.jpg"⟩], [⟨1, "cat", 10⟩],
          [⟨1, some 95⟩], [1]⟩)) :=
  ⟨⟨by decide, by decide, by decide⟩,
   manifest_rows_match_reader (fun px => toString px.length) 1 [] ["base"]
     ⟨"p", none, false, some ["outd"]⟩
     ⟨[(["base", "p", "db.sqlite"],
        .store ⟨[⟨1, "a1", some "c.jpg"⟩], [⟨1, "cat", 10⟩], [⟨1, some 95⟩], [1]⟩),
       (["base", "p", "data", "blobs", "a1"], .image [3, 4])], [["outd"]]⟩
     ⟨[⟨1, "a1", some "c.jpg"⟩], [⟨1, "cat", 10⟩], [⟨1, some 95⟩], [1]⟩
     (by decide) (by decide) (by decide)⟩

end LobeExport
